import Mathlib

/-!
Shallow embedding of the Convex backend of a realtime chat application
(`convex/presence.ts`, `convex/typing.ts`, `convex/reactions.ts`,
`convex/conversations.ts`, `convex/messages.ts`, `convex/schema.ts`).

Tables are modelled as Lean lists kept in creation order (Convex inserts
append, and the `by_conversation`-style indexes iterate in `_creationTime`
order, i.e. insertion order).  Machine timestamps are `Int` (Unix ms).
Document ids are `Nat`, drawn from a `nextId` counter of the state.
Mutations are functions `... → DB → Except String (α × DB)`; throwing an
error in a Convex mutation aborts the transaction, so an `Except.error`
carries no successor state.  `ctx.db.query(...).unique()` is modelled by
`uniqueQ`, which errors when more than one row matches, exactly like the
Convex helper.
-/

namespace Chat

abbrev UserId := Nat
abbrev ConvId := Nat
abbrev MsgId := Nat

inductive CType
  | dm
  | group
deriving DecidableEq, Repr

inductive Role
  | member
  | admin
deriving DecidableEq, Repr

/-- `conversations` table row (schema.ts). -/
structure Conversation where
  id : ConvId
  ctype : CType
  participantIds : List UserId
  name : Option String := none
  imageUrl : Option String := none
  createdBy : Option UserId := none
  lastMessageId : Option MsgId := none
  lastMessageText : Option String := none
  lastMessageTime : Option Int := none
  lastMessageSenderId : Option UserId := none
deriving DecidableEq, Repr

/-- `conversationMembers` table row (schema.ts).  `lastReadAt` is declared in
the generated data model and read by `getConversationMeta`, but no mutation in
the repository ever writes it. -/
structure Member where
  conversationId : ConvId
  userId : UserId
  unreadCount : Nat
  lastReadMessageId : Option MsgId := none
  lastReadAt : Option Int := none
  role : Option Role := none
  joinedAt : Int
deriving DecidableEq, Repr

/-- `messages` table row (schema.ts); `creationTime` is Convex's
`_creationTime`. -/
structure Message where
  id : MsgId
  creationTime : Int
  conversationId : ConvId
  senderId : UserId
  text : String
  sentAt : Option Int := none
  replyToId : Option MsgId := none
  deleted : Bool
  deletedAt : Option Int := none
  edited : Option Bool := none
  editedAt : Option Int := none
deriving DecidableEq, Repr

/-- `reactions` table row (schema.ts). -/
structure Reaction where
  messageId : MsgId
  userId : UserId
  emoji : String
  createdAt : Int
deriving DecidableEq, Repr

/-- `typing` table row (schema.ts). -/
structure TypingRow where
  conversationId : ConvId
  userId : UserId
  updatedAt : Int
deriving DecidableEq, Repr

/-- `presence` table row (schema.ts). -/
structure PresenceRow where
  userId : UserId
  status : String
  lastSeenAt : Int
deriving DecidableEq, Repr

/-- `users` table row (schema.ts). -/
structure User where
  id : UserId
  name : String
  email : String := ""
  imageUrl : String := ""
  displayName : Option String := none
deriving DecidableEq, Repr

/-- The whole Convex database. -/
structure DB where
  users : List User := []
  conversations : List Conversation := []
  members : List Member := []
  messages : List Message := []
  reactions : List Reaction := []
  typing : List TypingRow := []
  presence : List PresenceRow := []
  nextId : Nat := 0
deriving DecidableEq, Repr

/-- `ctx.db.patch(x._id, ...)` where `x` is the first row matching `p`:
replace the first element satisfying `p` by its image under `f`. -/
def patchFirst (p : α → Bool) (f : α → α) : List α → List α
  | [] => []
  | x :: xs => if p x then f x :: xs else x :: patchFirst p f xs

/-- `ctx.db.query(...).withIndex(...).unique()`: `none` when no row matches,
the row when exactly one does, and a thrown error when several do. -/
def uniqueQ (p : α → Bool) (l : List α) : Except String (Option α) :=
  match l.filter p with
  | [] => Except.ok none
  | [x] => Except.ok (some x)
  | _ => Except.error "unique: more than one row matched"

-- ─── Presence (convex/presence.ts) ───────────────────────────────────────

/-- `HEARTBEAT_INTERVAL_MS = 30_000` (presence.ts). -/
def HEARTBEAT_INTERVAL_MS : Int := 30000

/-- `PRESENCE_EXPIRY_MS = HEARTBEAT_INTERVAL_MS * 3` (presence.ts). -/
def PRESENCE_EXPIRY_MS : Int := HEARTBEAT_INTERVAL_MS * 3

/-- `getEffectiveStatus` (presence.ts); `Date.now()` is the `now` argument. -/
def getEffectiveStatus (now : Int) (status : String) (lastSeenAt : Int) : String :=
  if status = "dnd" then "dnd"
  else if status = "offline" then "offline"
  else if now - lastSeenAt > PRESENCE_EXPIRY_MS then "offline"
  else if status = "idle" then "idle"
  else "online"

/-- `setPresence` (presence.ts), for an authenticated caller `userId`.
The `status` argument is validated as `v.string()` only, i.e. any string is
accepted and stored verbatim. -/
def setPresence (now : Int) (userId : UserId) (status : String) (db : DB) :
    Except String (Unit × DB) := do
  let existing ← uniqueQ (fun r => decide (r.userId = userId)) db.presence
  match existing with
  | some _ =>
      Except.ok ((), { db with
        presence := patchFirst (fun r => decide (r.userId = userId))
          (fun r => { r with status := status, lastSeenAt := now }) db.presence })
  | none =>
      Except.ok ((), { db with
        presence := db.presence ++ [{ userId := userId, status := status, lastSeenAt := now }] })

-- ─── Typing (convex/typing.ts) ───────────────────────────────────────────

/-- `TYPING_TTL_MS = 3_000` (typing.ts). -/
def TYPING_TTL_MS : Int := 3000

/-- `TYPING_HEARTBEAT_MS = 2_000` (typing.ts). -/
def TYPING_HEARTBEAT_MS : Int := 2000

/-- `setTyping` (typing.ts) for authenticated caller `userId`. -/
def setTyping (now : Int) (userId : UserId) (conversationId : ConvId)
    (isTyping : Bool) (db : DB) : Except String (Unit × DB) := do
  let existing ← uniqueQ
    (fun t => decide (t.userId = userId ∧ t.conversationId = conversationId)) db.typing
  if isTyping then
    match existing with
    | some _ =>
        Except.ok ((), { db with
          typing := patchFirst
            (fun t => decide (t.userId = userId ∧ t.conversationId = conversationId))
            (fun t => { t with updatedAt := now }) db.typing })
    | none =>
        Except.ok ((), { db with
          typing := db.typing ++
            [{ conversationId := conversationId, userId := userId, updatedAt := now }] })
  else
    match existing with
    | some _ =>
        Except.ok ((), { db with
          typing := db.typing.eraseP
            (fun t => decide (t.userId = userId ∧ t.conversationId = conversationId)) })
    | none => Except.ok ((), db)

/-- `getTypingUsers` (typing.ts) for authenticated caller `callerId`,
with `Date.now()` passed as `now`.  Returns `(userId, name)` pairs. -/
def getTypingUsers (now : Int) (callerId : UserId) (conversationId : ConvId)
    (db : DB) : List (UserId × String) :=
  let cutoff := now - TYPING_TTL_MS
  let indicators := db.typing.filter (fun t => decide (t.conversationId = conversationId))
  let active := indicators.filter
    (fun t => decide (t.userId ≠ callerId ∧ t.updatedAt > cutoff))
  active.map (fun t =>
    (t.userId,
      match db.users.find? (fun u => decide (u.id = t.userId)) with
      | some u => u.name
      | none => "Someone"))

/-- JS `String.prototype.trim()`: strip leading and trailing whitespace.
(Defined by structural recursion over the character list so that concrete
states evaluate inside the kernel; `String.trim` of core Lean has the same
semantics but is not kernel-reducible.) -/
def trimString (s : String) : String :=
  String.mk (((s.data.dropWhile Char.isWhitespace).reverse.dropWhile
    Char.isWhitespace).reverse)

-- ─── Conversation manager (convex/reactions.ts lines 154-450, the
-- `conversations` module of the deployed app) ────────────────────────────

/-- `[userId, otherUserId].sort()`: canonical sorted participant pair. -/
def sortPair (a b : UserId) : List UserId :=
  if a ≤ b then [a, b] else [b, a]

/-- Number of `dm` conversations whose two-element participant list contains
both `a` and `b` — the dedup target of `getOrCreateConversation`. -/
def pairDmCount (a b : UserId) (db : DB) : Nat :=
  (db.conversations.filter (fun c =>
    decide (c.ctype = CType.dm ∧ c.participantIds.length = 2 ∧
      a ∈ c.participantIds ∧ b ∈ c.participantIds))).length

/-- `getOrCreateConversation` (reactions.ts 266-326) for authenticated caller
`userId`: phase-1 index lookup on the sorted pair, phase-2 full scan over
`dm` conversations, else insert the conversation plus both member rows. -/
def getOrCreateConversation (now : Int) (userId otherUserId : UserId) (db : DB) :
    Except String (ConvId × DB) :=
  if userId = otherUserId then
    Except.error "Cannot start a conversation with yourself"
  else do
    let participantIds := sortPair userId otherUserId
    let byIndex ← uniqueQ (fun c => decide (c.participantIds = participantIds))
      db.conversations
    match byIndex with
    | some c => Except.ok (c.id, db)
    | none =>
      let allDms := db.conversations.filter (fun c => decide (c.ctype = CType.dm))
      match allDms.find? (fun c => decide (c.participantIds.length = 2 ∧
          userId ∈ c.participantIds ∧ otherUserId ∈ c.participantIds)) with
      | some c => Except.ok (c.id, db)
      | none =>
        let conversationId := db.nextId
        Except.ok (conversationId, { db with
          conversations := db.conversations ++
            [{ id := conversationId, ctype := CType.dm, participantIds := participantIds }],
          members := db.members ++
            [{ conversationId := conversationId, userId := userId,
               unreadCount := 0, joinedAt := now },
             { conversationId := conversationId, userId := otherUserId,
               unreadCount := 0, joinedAt := now }],
          nextId := db.nextId + 1 })

/-- `Array.from(new Set([userId, ...memberIds]))`: deduplicate keeping the
first occurrence of each id, in order. -/
def dedupFirst : List UserId → List UserId
  | [] => []
  | x :: xs => x :: (dedupFirst xs).filter (fun y => decide (y ≠ x))

/-- `createGroup` (reactions.ts 334-374) for authenticated caller `userId`. -/
def createGroup (now : Int) (userId : UserId) (name : String)
    (memberIds : List UserId) (imageUrl : Option String) (db : DB) :
    Except String (ConvId × DB) :=
  let trimmedName := trimString name
  if trimmedName = "" then Except.error "Group name is required"
  else
    let allMemberIds := dedupFirst (userId :: memberIds)
    if allMemberIds.length < 2 then Except.error "A group must have at least 2 members"
    else
      let conversationId := db.nextId
      Except.ok (conversationId, { db with
        conversations := db.conversations ++
          [{ id := conversationId, ctype := CType.group, name := some trimmedName,
             imageUrl := imageUrl, createdBy := some userId,
             participantIds := allMemberIds }],
        members := db.members ++ allMemberIds.map (fun memberId =>
          { conversationId := conversationId, userId := memberId, unreadCount := 0,
            role := some (if memberId = userId then Role.admin else Role.member),
            joinedAt := now }),
        nextId := db.nextId + 1 })

/-- `markConversationRead` (reactions.ts 382-403) for authenticated caller
`userId`: resets `unreadCount` to 0 and records `lastReadMessageId` when the
argument is supplied.  It does not write `lastReadAt`. -/
def markConversationRead (userId : UserId) (conversationId : ConvId)
    (lastReadMessageId : Option MsgId) (db : DB) : Except String (Unit × DB) := do
  let membership ← uniqueQ
    (fun m => decide (m.userId = userId ∧ m.conversationId = conversationId)) db.members
  match membership with
  | some _ =>
      Except.ok ((), { db with
        members := patchFirst
          (fun m => decide (m.userId = userId ∧ m.conversationId = conversationId))
          (fun m => { m with
            unreadCount := 0,
            lastReadMessageId := match lastReadMessageId with
              | some x => some x
              | none => m.lastReadMessageId }) db.members })
  | none => Except.ok ((), db)

/-- `leaveConversation` (reactions.ts 412-449) for authenticated caller
`userId`. -/
def leaveConversation (userId : UserId) (conversationId : ConvId) (db : DB) :
    Except String (Unit × DB) :=
  match db.conversations.find? (fun c => decide (c.id = conversationId)) with
  | none => Except.error "Conversation not found"
  | some conversation =>
    if conversation.ctype ≠ CType.group then
      Except.error "Can only leave group conversations"
    else do
      let membership ← uniqueQ
        (fun m => decide (m.userId = userId ∧ m.conversationId = conversationId)) db.members
      match membership with
      | none => Except.error "Not a member of this conversation"
      | some membership =>
        let members1 := db.members.eraseP
          (fun m => decide (m.userId = userId ∧ m.conversationId = conversationId))
        let remaining := conversation.participantIds.filter (fun i => decide (i ≠ userId))
        let convs1 := patchFirst (fun c => decide (c.id = conversationId))
          (fun c => { c with participantIds := remaining }) db.conversations
        if membership.role = some Role.admin ∧ remaining.length > 0 then
          match members1.find? (fun m => decide (m.conversationId = conversationId)) with
          | some _ =>
            Except.ok ((), { db with
              conversations := convs1,
              members := patchFirst (fun m => decide (m.conversationId = conversationId))
                (fun m => { m with role := some Role.admin }) members1 })
          | none => Except.ok ((), { db with conversations := convs1, members := members1 })
        else Except.ok ((), { db with conversations := convs1, members := members1 })

-- ─── Message store (convex/messages.ts lines 404-603) ─────────────────────

/-- The snapshot-text truncation in `sendMessage`:
`trimmed.length > 80 ? trimmed.slice(0, 80) + "…" : trimmed`. -/
def truncateText (s : String) : String :=
  if s.length > 80 then s.take 80 ++ "…" else s

/-- `sendMessage` (messages.ts 489-542) for authenticated caller `userId`:
insert the message, patch the conversation snapshot, and increment
`unreadCount` for every member row other than the sender's. -/
def sendMessage (now : Int) (userId : UserId) (conversationId : ConvId)
    (text : String) (replyToId : Option MsgId) (db : DB) :
    Except String (MsgId × DB) :=
  let trimmed := trimString text
  if trimmed = "" then Except.error "Message text cannot be empty"
  else do
    let membership ← uniqueQ
      (fun m => decide (m.userId = userId ∧ m.conversationId = conversationId)) db.members
    match membership with
    | none => Except.error "Not a member of this conversation"
    | some _ =>
      let messageId := db.nextId
      Except.ok (messageId, { db with
        messages := db.messages ++
          [{ id := messageId, creationTime := now, conversationId := conversationId,
             senderId := userId, text := trimmed, sentAt := some now,
             replyToId := replyToId, deleted := false, edited := some false }],
        conversations := patchFirst (fun c => decide (c.id = conversationId))
          (fun c => { c with
            lastMessageId := some messageId,
            lastMessageText := some (truncateText trimmed),
            lastMessageTime := some now,
            lastMessageSenderId := some userId })
          db.conversations,
        members := db.members.map (fun m =>
          if m.conversationId = conversationId ∧ m.userId ≠ userId then
            { m with unreadCount := m.unreadCount + 1 }
          else m),
        nextId := db.nextId + 1 })

/-- `editMessage` (messages.ts 550-572) for authenticated caller `userId`. -/
def editMessage (now : Int) (userId : UserId) (messageId : MsgId) (text : String)
    (db : DB) : Except String (Unit × DB) :=
  match db.messages.find? (fun m => decide (m.id = messageId)) with
  | none => Except.error "Message not found"
  | some message =>
    if message.senderId ≠ userId then Except.error "Only the sender can edit this message"
    else if message.deleted then Except.error "Cannot edit a deleted message"
    else
      let trimmed := trimString text
      if trimmed = "" then Except.error "Message text cannot be empty"
      else
        Except.ok ((), { db with
          messages := patchFirst (fun m => decide (m.id = messageId))
            (fun m => { m with text := trimmed, edited := some true, editedAt := some now })
            db.messages })

/-- `deleteMessage` (messages.ts 581-603) for authenticated caller `userId`:
soft-delete the message, then replace the conversation snapshot text with the
fixed marker when the deleted message was the snapshot last message. -/
def deleteMessage (now : Int) (userId : UserId) (messageId : MsgId) (db : DB) :
    Except String (Unit × DB) :=
  match db.messages.find? (fun m => decide (m.id = messageId)) with
  | none => Except.error "Message not found"
  | some message =>
    if message.senderId ≠ userId then Except.error "Only the sender can delete this message"
    else
      let db1 := { db with
        messages := patchFirst (fun m => decide (m.id = messageId))
          (fun m => { m with deleted := true, deletedAt := some now }) db.messages }
      match db1.conversations.find? (fun c => decide (c.id = message.conversationId)) with
      | some conversation =>
        if conversation.lastMessageId = some messageId then
          Except.ok ((), { db1 with
            conversations := patchFirst
              (fun c => decide (c.id = message.conversationId))
              (fun c => { c with lastMessageText := some "Message deleted" })
              db1.conversations })
        else Except.ok ((), db1)
      | none => Except.ok ((), db1)

/-- One row of the `listMessages` result (messages.ts 418-479). -/
structure MessageView where
  id : MsgId
  creationTime : Int
  conversationId : ConvId
  senderId : UserId
  senderName : String
  senderImageUrl : String
  text : Option String
  sentAt : Int
  deleted : Bool
  deletedAt : Option Int
  edited : Bool
  editedAt : Option Int
  replyToId : Option MsgId
deriving DecidableEq, Repr

/-- The per-row projection of `listMessages`: sender enrichment plus the
mandatory tombstone scrubbing for deleted rows. -/
def viewMessage (users : List User) (msg : Message) : MessageView :=
  let sender := users.find? (fun u => decide (u.id = msg.senderId))
  let senderName := match sender with
    | some u => match u.displayName with
      | some d => d
      | none => u.name
    | none => "Unknown"
  let senderImageUrl := match sender with
    | some u => u.imageUrl
    | none => ""
  let sentAt := msg.sentAt.getD msg.creationTime
  if msg.deleted then
    { id := msg.id, creationTime := msg.creationTime,
      conversationId := msg.conversationId, senderId := msg.senderId,
      senderName := senderName, senderImageUrl := senderImageUrl,
      text := none, sentAt := sentAt, deleted := true, deletedAt := msg.deletedAt,
      edited := false, editedAt := none, replyToId := msg.replyToId }
  else
    { id := msg.id, creationTime := msg.creationTime,
      conversationId := msg.conversationId, senderId := msg.senderId,
      senderName := senderName, senderImageUrl := senderImageUrl,
      text := some msg.text, sentAt := sentAt, deleted := false, deletedAt := none,
      edited := msg.edited.getD false, editedAt := msg.editedAt,
      replyToId := msg.replyToId }

/-- `listMessages` (messages.ts 418-479): all messages of the conversation in
creation order, each projected through `viewMessage`. -/
def listMessages (conversationId : ConvId) (db : DB) : List MessageView :=
  (db.messages.filter (fun m => decide (m.conversationId = conversationId))).map
    (viewMessage db.users)

/-- Result of `getConversationMeta` (messages.ts 245-290). -/
structure ConversationMeta where
  latestMessageSentAt : Option Int
  unreadCount : Nat
deriving DecidableEq, Repr

/-- `getConversationMeta` (messages.ts 245-290) for authenticated caller
`userId`.  The read cutoff is `membership.lastReadAt ?? membership.joinedAt`
(`?? 0` in the source is unreachable because `joinedAt` is required by the
schema); the loop over all messages mirrors the source loop. -/
def getConversationMeta (userId : UserId) (conversationId : ConvId) (db : DB) :
    Except String ConversationMeta := do
  let membership ← uniqueQ
    (fun m => decide (m.userId = userId ∧ m.conversationId = conversationId)) db.members
  match membership with
  | none => Except.ok { latestMessageSentAt := none, unreadCount := 0 }
  | some membership =>
    let readCutoff : Int := membership.lastReadAt.getD membership.joinedAt
    let allMessages := db.messages.filter
      (fun m => decide (m.conversationId = conversationId))
    let res := allMessages.foldl (fun (acc : Option Int × Nat) m =>
      let ts := m.sentAt.getD m.creationTime
      let latest := match acc.1 with
        | none => some ts
        | some l => if ts > l then some ts else some l
      let unread := if ts > readCutoff then acc.2 + 1 else acc.2
      (latest, unread)) (none, 0)
    Except.ok { latestMessageSentAt := res.1, unreadCount := res.2 }

-- ─── Reaction store (convex/reactions.ts lines 1-153) ─────────────────────

/-- `toggleReaction` (reactions.ts 101-135) for authenticated caller
`userId`: delete the (message, user, emoji) row when it exists, insert it
(with `createdAt = Date.now()`) when it does not. -/
def toggleReaction (now : Int) (userId : UserId) (messageId : MsgId)
    (emoji : String) (db : DB) : Except String (Unit × DB) :=
  match db.messages.find? (fun m => decide (m.id = messageId)) with
  | none => Except.error "Message not found"
  | some message =>
    if message.deleted then Except.error "Cannot react to a deleted message"
    else do
      let existing ← uniqueQ
        (fun r => decide (r.messageId = messageId ∧ r.userId = userId ∧ r.emoji = emoji))
        db.reactions
      match existing with
      | some _ =>
          Except.ok ((), { db with
            reactions := db.reactions.eraseP
              (fun r => decide (r.messageId = messageId ∧ r.userId = userId ∧
                r.emoji = emoji)) })
      | none =>
          Except.ok ((), { db with
            reactions := db.reactions ++
              [{ messageId := messageId, userId := userId, emoji := emoji,
                 createdAt := now }] })

/-- One entry of the `getReactions` grouped view (reactions.ts 16-48). -/
structure ReactionGroup where
  emoji : String
  count : Nat
  userIds : List UserId
  selfReacted : Bool
deriving DecidableEq, Repr

/-- JS object keys are in first-insertion order: the emojis of the rows with
later duplicates removed. -/
def firstKeys : List String → List String
  | [] => []
  | e :: es => e :: (firstKeys es).filter (fun x => decide (x ≠ e))

/-- Stable insertion into a list sorted by descending `count`
(`.sort((a, b) => b.count - a.count)` is stable in JS). -/
def insertByCount (g : ReactionGroup) : List ReactionGroup → List ReactionGroup
  | [] => [g]
  | h :: t => if h.count > g.count then h :: insertByCount g t else g :: h :: t

/-- Stable sort by descending `count`. -/
def sortByCountDesc : List ReactionGroup → List ReactionGroup
  | [] => []
  | h :: t => insertByCount h (sortByCountDesc t)

/-- `getReactions` (reactions.ts 16-48) for authenticated viewer `viewerId`:
group the message's reaction rows by emoji and sort by descending count. -/
def getReactions (viewerId : UserId) (messageId : MsgId) (db : DB) :
    List ReactionGroup :=
  let rows := db.reactions.filter (fun r => decide (r.messageId = messageId))
  let keys := firstKeys (rows.map Reaction.emoji)
  let groups := keys.map (fun e =>
    let ers := rows.filter (fun r => decide (r.emoji = e))
    { emoji := e, count := ers.length, userIds := ers.map Reaction.userId,
      selfReacted := ers.any (fun r => decide (r.userId = viewerId)) : ReactionGroup })
  sortByCountDesc groups

/-- The count the grouped view reports for `emoji` (0 when no group entry
exists, i.e. no row with that emoji remains). -/
def reportedCount (groups : List ReactionGroup) (emoji : String) : Nat :=
  match groups.find? (fun g => decide (g.emoji = emoji)) with
  | some g => g.count
  | none => 0

/-- Projection of a reaction row to its identifying triple. -/
def tripleOf (r : Reaction) : MsgId × UserId × String :=
  (r.messageId, r.userId, r.emoji)

/-- The state invariant of the conversation manager relevant to group
administration: document ids already allocated are below the `nextId`
counter, every group membership row's user appears in the group's
`participantIds` snapshot, membership rows are unique per
(user, conversation), and every group conversation that still has a
membership row has one whose role is `admin`. -/
structure GroupInv (db : DB) : Prop where
  fresh_conv : ∀ c ∈ db.conversations, c.id < db.nextId
  fresh_mem : ∀ m ∈ db.members, m.conversationId < db.nextId
  mem_sub : ∀ c ∈ db.conversations, c.ctype = CType.group →
    ∀ m ∈ db.members, m.conversationId = c.id → m.userId ∈ c.participantIds
  mem_unique : ∀ (cid : ConvId) (u : UserId),
    (db.members.filter
      (fun m => decide (m.userId = u ∧ m.conversationId = cid))).length ≤ 1
  admin_exists : ∀ c ∈ db.conversations, c.ctype = CType.group →
    (∃ m ∈ db.members, m.conversationId = c.id) →
    ∃ m ∈ db.members, m.conversationId = c.id ∧ m.role = some Role.admin

-- ─── Concrete example states (used by witnesses and counterexamples) ─────

/-- A three-member group conversation whose creator 0 is admin, used by the
C8 witness. -/
def exGroupDB : DB :=
  { conversations := [{
      id := 3,
      ctype := CType.group,
      participantIds := [0, 1, 2],
      name := some "team",
      createdBy := some 0 }],
    members :=
      [{ conversationId := 3, userId := 0, unreadCount := 0,
         role := some Role.admin, joinedAt := 0 },
       { conversationId := 3, userId := 1, unreadCount := 0,
         role := some Role.member, joinedAt := 1 },
       { conversationId := 3, userId := 2, unreadCount := 0,
         role := some Role.member, joinedAt := 2 }],
    nextId := 4 }

/-- A conversation-1 state with three member rows, used by the C2 witness. -/
def exMembersDB : DB :=
  { members :=
      [{ conversationId := 1, userId := 0, unreadCount := 5, joinedAt := 0 },
       { conversationId := 1, userId := 1, unreadCount := 2, joinedAt := 0 },
       { conversationId := 1, userId := 2, unreadCount := 7, joinedAt := 0 }],
    nextId := 40 }

/-- A previously edited message, used by the C3 and C9 witnesses. -/
def exMsg : Message :=
  { id := 5, creationTime := 10, conversationId := 1, senderId := 0,
    text := "secret", sentAt := some 10, deleted := false,
    edited := some true, editedAt := some 20 }

/-- A state whose conversation snapshot points at `exMsg` as last message. -/
def exMsgDB : DB :=
  { users := [{ id := 0, name := "alice" }],
    conversations := [{
      id := 1,
      ctype := CType.dm,
      participantIds := [0, 2],
      lastMessageId := some 5,
      lastMessageText := some "secret",
      lastMessageTime := some 10,
      lastMessageSenderId := some 0 }],
    messages := [exMsg],
    nextId := 6 }

/-- A live message, used by the C4 states. -/
def exReactMsg : Message :=
  { id := 5, creationTime := 0, conversationId := 1, senderId := 0,
    text := "x", deleted := false }

/-- A state in which user 7 is already reacting to message 5 with `"a"`,
the row having been created at time 0. -/
def exReactDB : DB :=
  { messages := [exReactMsg],
    reactions := [{ messageId := 5, userId := 7, emoji := "a", createdAt := 0 }],
    nextId := 6 }

-- ─── Generic helper lemmas ────────────────────────────────────────────────

theorem patchFirst_eq_map (p : α → Bool) (f : α → α) (l : List α)
    (h : (l.filter p).length ≤ 1) :
    patchFirst p f l = l.map (fun x => if p x then f x else x) := by
  induction l with
  | nil => rfl
  | cons x xs ih =>
    by_cases hp : p x
    · have hxs : xs.filter p = [] := by
        have h' := h
        simp only [List.filter_cons, hp, if_true, List.length_cons] at h'
        have : (xs.filter p).length = 0 := by omega
        exact List.eq_nil_of_length_eq_zero this
      have hall : ∀ a ∈ xs, ¬ p a := List.filter_eq_nil_iff.mp hxs
      have hmap : xs.map (fun x => if p x then f x else x) = xs := by
        have : xs.map (fun x => if p x then f x else x) = xs.map id := by
          apply List.map_congr_left
          intro a ha
          simp [hall a ha]
        simpa using this
      simp [patchFirst, hp, hmap]
    · have hlen : (xs.filter p).length ≤ 1 := by
        simpa [List.filter_cons, hp] using h
      simp [patchFirst, hp, ih hlen]

theorem find?_eq_head?_filter (p : α → Bool) (l : List α) :
    l.find? p = (l.filter p).head? := by
  induction l with
  | nil => rfl
  | cons x xs ih =>
    by_cases hp : p x
    · rw [List.find?_cons_of_pos _ hp, List.filter_cons_of_pos hp]
      rfl
    · rw [List.find?_cons_of_neg _ hp, List.filter_cons_of_neg hp, ih]

theorem filter_eraseP (p : α → Bool) (l : List α) :
    (l.eraseP p).filter p = (l.filter p).tail := by
  induction l with
  | nil => rfl
  | cons x xs ih =>
    by_cases hp : p x
    · simp [List.eraseP_cons, hp, List.filter_cons]
    · simp [List.eraseP_cons, hp, List.filter_cons, ih]

theorem mem_patchFirst_of_not (p : α → Bool) (f : α → α) {x : α} {l : List α}
    (hx : x ∈ l) (hnp : ¬ p x) : x ∈ patchFirst p f l := by
  induction l with
  | nil => cases hx
  | cons y ys ih =>
    by_cases hy : p y
    · simp only [patchFirst, hy, if_true]
      rcases List.mem_cons.mp hx with h | h
      · exact absurd (h ▸ hy) hnp
      · exact List.mem_cons_of_mem _ h
    · simp only [patchFirst, hy, if_false]
      rcases List.mem_cons.mp hx with h | h
      · exact h ▸ List.mem_cons_self _ _
      · exact List.mem_cons_of_mem _ (ih h)

theorem mem_eraseP_of_not (p : α → Bool) {x : α} {l : List α}
    (hx : x ∈ l) (hnp : ¬ p x) : x ∈ l.eraseP p := by
  induction l with
  | nil => cases hx
  | cons y ys ih =>
    by_cases hy : p y
    · simp only [List.eraseP_cons, hy, cond_true]
      rcases List.mem_cons.mp hx with h | h
      · exact absurd (h ▸ hy) hnp
      · exact h
    · simp only [List.eraseP_cons, hy, cond_false]
      rcases List.mem_cons.mp hx with h | h
      · exact h ▸ List.mem_cons_self _ _
      · exact List.mem_cons_of_mem _ (ih h)

theorem mem_of_mem_patchFirst (p : α → Bool) (f : α → α) {x : α} {l : List α}
    (hx : x ∈ patchFirst p f l) : x ∈ l ∨ ∃ y ∈ l, p y = true ∧ x = f y := by
  induction l with
  | nil => cases hx
  | cons y ys ih =>
    by_cases hy : p y
    · simp only [patchFirst, hy, if_true] at hx
      rcases List.mem_cons.mp hx with h | h
      · exact Or.inr ⟨y, List.mem_cons_self _ _, hy, h⟩
      · exact Or.inl (List.mem_cons_of_mem _ h)
    · simp only [patchFirst, hy, if_false] at hx
      rcases List.mem_cons.mp hx with h | h
      · exact Or.inl (h ▸ List.mem_cons_self _ _)
      · rcases ih h with h' | ⟨z, hz, hpz, hxz⟩
        · exact Or.inl (List.mem_cons_of_mem _ h')
        · exact Or.inr ⟨z, List.mem_cons_of_mem _ hz, hpz, hxz⟩

theorem filter_patchFirst_self (p : α → Bool) (f : α → α) (l : List α)
    (hpres : ∀ x, p (f x) = p x) :
    (patchFirst p f l).filter p =
      match l.filter p with
      | [] => ([] : List α)
      | h :: t => f h :: t := by
  induction l with
  | nil => rfl
  | cons x xs ih =>
    by_cases hp : p x
    · simp [patchFirst, hp, List.filter_cons, hpres x]
    · simp [patchFirst, hp, List.filter_cons, ih]

theorem countP_patchFirst (p q : α → Bool) (f : α → α) (l : List α)
    (hpres : ∀ x, q (f x) = q x) :
    (patchFirst p f l).countP q = l.countP q := by
  induction l with
  | nil => rfl
  | cons x xs ih =>
    by_cases hp : p x
    · simp [patchFirst, hp, List.countP_cons, hpres x]
    · simp [patchFirst, hp, List.countP_cons, ih]

theorem uniqueQ_of_small (p : α → Bool) (l : List α)
    (h : (l.filter p).length ≤ 1) :
    uniqueQ p l = Except.ok (l.filter p).head? := by
  unfold uniqueQ
  match hf : l.filter p with
  | [] => rfl
  | [x] => rfl
  | x :: y :: t => rw [hf] at h; simp at h

theorem sortPair_comm (a b : UserId) : sortPair a b = sortPair b a := by
  unfold sortPair
  rcases Nat.le_total a b with h | h
  · by_cases h' : b ≤ a
    · have : a = b := Nat.le_antisymm h h'
      simp [this]
    · simp [h, h']
  · by_cases h' : a ≤ b
    · have : a = b := Nat.le_antisymm h' h
      simp [this]
    · simp [h, h']

theorem sortPair_length (a b : UserId) : (sortPair a b).length = 2 := by
  unfold sortPair
  split <;> rfl

theorem mem_sortPair (x a b : UserId) : x ∈ sortPair a b ↔ x = a ∨ x = b := by
  unfold sortPair
  split <;> simp [or_comm]

-- ─── C5 / C10: presence derivation ────────────────────────────────────────

/-- C5: `getEffectiveStatus` returns `"dnd"` whenever the stored status is
`"dnd"` regardless of heartbeat age; `"offline"` whenever the stored status
is `"offline"` or (unless `"dnd"`) the heartbeat is older than the expiry
window; the stored status otherwise (for the stored values `"online"` and
`"idle"`); the expiry window is exactly 3 heartbeat intervals; and a record
with status `"online"` and `lastSeenAt = now - (EXPIRY + 1)` is reported
`"offline"`. -/
theorem getEffectiveStatus_spec (now lastSeenAt : Int) (status : String) :
    (status = "dnd" → getEffectiveStatus now status lastSeenAt = "dnd") ∧
    (status = "offline" → getEffectiveStatus now status lastSeenAt = "offline") ∧
    (status ≠ "dnd" → now - lastSeenAt > PRESENCE_EXPIRY_MS →
      getEffectiveStatus now status lastSeenAt = "offline") ∧
    ((status = "online" ∨ status = "idle") →
      now - lastSeenAt ≤ PRESENCE_EXPIRY_MS →
      getEffectiveStatus now status lastSeenAt = status) ∧
    PRESENCE_EXPIRY_MS = 3 * HEARTBEAT_INTERVAL_MS ∧
    getEffectiveStatus now "online" (now - (PRESENCE_EXPIRY_MS + 1)) = "offline" := by
  refine ⟨?_, ?_, ?_, ?_, ?_, ?_⟩
  · intro h; simp [getEffectiveStatus, h]
  · intro h; simp [getEffectiveStatus, h]
  · intro h hexp
    simp only [getEffectiveStatus, if_neg h]
    by_cases hoff : status = "offline"
    · simp [hoff]
    · simp [hoff, hexp]
  · rintro (h | h) hfresh
    · subst h
      have : ¬ (now - lastSeenAt > PRESENCE_EXPIRY_MS) := by omega
      simp [getEffectiveStatus, this]
    · subst h
      have : ¬ (now - lastSeenAt > PRESENCE_EXPIRY_MS) := by omega
      simp [getEffectiveStatus, this]
  · decide
  · have : now - (now - (PRESENCE_EXPIRY_MS + 1)) > PRESENCE_EXPIRY_MS := by omega
    simp [getEffectiveStatus, this]

/-- Witness for C5 at a concrete record. -/
theorem getEffectiveStatus_spec_witness :
    getEffectiveStatus 1000000 "dnd" (-5000000) = "dnd" ∧
    getEffectiveStatus 1000000 "online" (1000000 - (PRESENCE_EXPIRY_MS + 1)) = "offline" := by
  refine ⟨(getEffectiveStatus_spec 1000000 (-5000000) "dnd").1 rfl,
    (getEffectiveStatus_spec 1000000 (1000000 - (PRESENCE_EXPIRY_MS + 1)) "online").2.2.2.2.2⟩

/-- C10 (implicit): `getEffectiveStatus` is total over arbitrary stored
status strings and always yields one of the four presence values; any stored
status other than `"dnd"`, `"offline"` and `"idle"` with a fresh heartbeat is
reported `"online"`; and `setPresence` stores an arbitrary status string
verbatim, without validation. -/
theorem getEffectiveStatus_total (now lastSeenAt : Int) (status : String) :
    (getEffectiveStatus now status lastSeenAt = "online" ∨
     getEffectiveStatus now status lastSeenAt = "idle" ∨
     getEffectiveStatus now status lastSeenAt = "dnd" ∨
     getEffectiveStatus now status lastSeenAt = "offline") ∧
    (status ≠ "dnd" → status ≠ "offline" → status ≠ "idle" →
      now - lastSeenAt ≤ PRESENCE_EXPIRY_MS →
      getEffectiveStatus now status lastSeenAt = "online") ∧
    (∀ (userId : UserId) (db : DB),
      (db.presence.filter (fun r => decide (r.userId = userId))).length ≤ 1 →
      ∃ db', setPresence now userId status db = Except.ok ((), db') ∧
        (db'.presence.filter (fun r => decide (r.userId = userId))).map
          (fun r => (r.status, r.lastSeenAt)) = [(status, now)]) := by
  refine ⟨?_, ?_, ?_⟩
  · unfold getEffectiveStatus
    by_cases h1 : status = "dnd" <;> by_cases h2 : status = "offline" <;>
      by_cases h3 : now - lastSeenAt > PRESENCE_EXPIRY_MS <;>
      by_cases h4 : status = "idle" <;> simp [h1, h2, h3, h4]
  · intro h1 h2 h3 hfresh
    have : ¬ (now - lastSeenAt > PRESENCE_EXPIRY_MS) := by omega
    simp [getEffectiveStatus, h1, h2, h3, this]
  · intro userId db hsmall
    rcases hf : db.presence.filter (fun r => decide (r.userId = userId)) with _ | ⟨r, _ | ⟨s, t⟩⟩
    · have hset : setPresence now userId status db = Except.ok ((), { db with
          presence := db.presence ++
            [{ userId := userId, status := status, lastSeenAt := now }] }) := by
        unfold setPresence
        rw [uniqueQ_of_small _ _ hsmall, hf]
        rfl
      refine ⟨_, hset, ?_⟩
      simp [List.filter_append, hf]
    · have hset : setPresence now userId status db = Except.ok ((), { db with
          presence := patchFirst (fun r => decide (r.userId = userId))
            (fun r => { r with status := status, lastSeenAt := now }) db.presence }) := by
        unfold setPresence
        rw [uniqueQ_of_small _ _ hsmall, hf]
        rfl
      refine ⟨_, hset, ?_⟩
      · have hpres : ∀ x : PresenceRow,
            (decide ((({ x with status := status, lastSeenAt := now } : PresenceRow)).userId = userId)) =
              decide (x.userId = userId) := by intro x; rfl
        have hflt := filter_patchFirst_self (fun r => decide (r.userId = userId))
          (fun r => { r with status := status, lastSeenAt := now }) db.presence hpres
        rw [hf] at hflt
        simp only [hflt]
        rfl
    · rw [hf] at hsmall; simp at hsmall

/-- Witness for C10: a fresh heartbeat with the unvalidated status
`"banana"` is stored verbatim and reported `"online"`. -/
theorem getEffectiveStatus_total_witness :
    getEffectiveStatus 0 "banana" 0 = "online" ∧
    ∃ db', setPresence 0 3 "banana" ({} : DB) = Except.ok ((), db') ∧
      (db'.presence.filter (fun r => decide (r.userId = 3))).map
        (fun r => (r.status, r.lastSeenAt)) = [("banana", 0)] := by
  refine ⟨(getEffectiveStatus_total 0 0 "banana").2.1 (by decide) (by decide) (by decide)
      (by decide),
    (getEffectiveStatus_total 0 0 "banana").2.2 3 ({} : DB) (by decide)⟩

-- ─── C7: typing indicator TTL ─────────────────────────────────────────────

/-- C7: after `setTyping(true)` at `t1`, once more than the TTL elapses with
no refresh, `getTypingUsers` excludes that user; `setTyping(false)`
immediately excludes the user regardless of freshness, and is a no-op when
the row is absent. -/
theorem setTyping_ttl (db : DB) (u conv : Nat) (t1 t2 : Int) (viewer : Nat)
    (huniq : (db.typing.filter
      (fun t => decide (t.userId = u ∧ t.conversationId = conv))).length ≤ 1) :
    (∃ db1, setTyping t1 u conv true db = Except.ok ((), db1) ∧
      (t2 - t1 > TYPING_TTL_MS →
        ∀ x ∈ getTypingUsers t2 viewer conv db1, x.1 ≠ u)) ∧
    (∃ db2, setTyping t1 u conv false db = Except.ok ((), db2) ∧
      (∀ (t : Int) (v : Nat), ∀ x ∈ getTypingUsers t v conv db2, x.1 ≠ u) ∧
      (db.typing.filter (fun t => decide (t.userId = u ∧ t.conversationId = conv)) = [] →
        db2 = db)) := by
  have hexcl : ∀ (dbx : DB),
      (∀ r ∈ dbx.typing, r.userId = u → r.conversationId = conv →
        r.updatedAt > t2 - TYPING_TTL_MS → False) →
      ∀ x ∈ getTypingUsers t2 viewer conv dbx, x.1 ≠ u := by
    intro dbx hrow x hx hxu
    simp only [getTypingUsers] at hx
    rcases List.mem_map.mp hx with ⟨r, hr, hrx⟩
    rcases List.mem_filter.mp hr with ⟨hr', hact⟩
    rcases List.mem_filter.mp hr' with ⟨hr'', hconv⟩
    simp only [decide_eq_true_eq] at hconv hact
    have hru : r.userId = u := by
      have h1 : x.1 = r.userId := by rw [← hrx]
      rw [← h1, hxu]
    exact hrow r hr'' hru hconv hact.2
  constructor
  · rcases hf : db.typing.filter
        (fun t => decide (t.userId = u ∧ t.conversationId = conv)) with _ | ⟨w, _ | ⟨s, t⟩⟩
    · have hset : setTyping t1 u conv true db = Except.ok ((), { db with
          typing := db.typing ++
            [{ conversationId := conv, userId := u, updatedAt := t1 }] }) := by
        unfold setTyping
        rw [uniqueQ_of_small _ _ huniq, hf]
        rfl
      refine ⟨_, hset, ?_⟩
      · intro hstale
        apply hexcl
        intro r hr hru hrc hfresh
        rcases List.mem_append.mp hr with h | h
        · have : r ∈ db.typing.filter
              (fun t => decide (t.userId = u ∧ t.conversationId = conv)) :=
            List.mem_filter.mpr ⟨h, by simp [hru, hrc]⟩
          rw [hf] at this
          cases this
        · simp only [List.mem_singleton] at h
          rw [h] at hfresh
          simp only [TYPING_TTL_MS] at hstale hfresh
          omega
    · have hset : setTyping t1 u conv true db = Except.ok ((), { db with
          typing := patchFirst
            (fun t => decide (t.userId = u ∧ t.conversationId = conv))
            (fun t => { t with updatedAt := t1 }) db.typing }) := by
        unfold setTyping
        rw [uniqueQ_of_small _ _ huniq, hf]
        rfl
      refine ⟨_, hset, ?_⟩
      · intro hstale
        apply hexcl
        intro r hr hru hrc hfresh
        rw [patchFirst_eq_map _ _ _ huniq] at hr
        rcases List.mem_map.mp hr with ⟨y, hy, hyr⟩
        by_cases hpy : (fun t : TypingRow =>
            decide (t.userId = u ∧ t.conversationId = conv)) y
        · rw [if_pos hpy] at hyr
          rw [← hyr] at hfresh
          simp only [TYPING_TTL_MS] at hstale hfresh
          omega
        · rw [if_neg hpy] at hyr
          apply hpy
          rw [hyr]
          simp [hru, hrc]
    · rw [hf] at huniq; simp at huniq
  · rcases hf : db.typing.filter
        (fun t => decide (t.userId = u ∧ t.conversationId = conv)) with _ | ⟨w, _ | ⟨s, t⟩⟩
    · have hset : setTyping t1 u conv false db = Except.ok ((), db) := by
        unfold setTyping
        rw [uniqueQ_of_small _ _ huniq, hf]
        rfl
      refine ⟨db, hset, ?_, fun _ => rfl⟩
      · intro t v x hx hxu
        simp only [getTypingUsers] at hx
        rcases List.mem_map.mp hx with ⟨r, hr, hrx⟩
        rcases List.mem_filter.mp hr with ⟨hr', _⟩
        rcases List.mem_filter.mp hr' with ⟨hr'', hconv⟩
        simp only [decide_eq_true_eq] at hconv
        have hru : r.userId = u := by
          have h1 : x.1 = r.userId := by rw [← hrx]
          rw [← h1, hxu]
        have : r ∈ db.typing.filter
            (fun t => decide (t.userId = u ∧ t.conversationId = conv)) :=
          List.mem_filter.mpr ⟨hr'', by simp [hru, hconv]⟩
        rw [hf] at this
        cases this
    · have hset : setTyping t1 u conv false db = Except.ok ((), { db with
          typing := db.typing.eraseP
            (fun t => decide (t.userId = u ∧ t.conversationId = conv)) }) := by
        unfold setTyping
        rw [uniqueQ_of_small _ _ huniq, hf]
        rfl
      refine ⟨_, hset, ?_, ?_⟩
      · intro t v x hx hxu
        simp only [getTypingUsers] at hx
        rcases List.mem_map.mp hx with ⟨r, hr, hrx⟩
        rcases List.mem_filter.mp hr with ⟨hr', _⟩
        rcases List.mem_filter.mp hr' with ⟨hr'', hconv⟩
        simp only [decide_eq_true_eq] at hconv
        have hru : r.userId = u := by
          have h1 : x.1 = r.userId := by rw [← hrx]
          rw [← h1, hxu]
        have hrmem : r ∈ (db.typing.eraseP
            (fun t => decide (t.userId = u ∧ t.conversationId = conv))).filter
            (fun t => decide (t.userId = u ∧ t.conversationId = conv)) :=
          List.mem_filter.mpr ⟨hr'', by simp [hru, hconv]⟩
        rw [filter_eraseP, hf] at hrmem
        cases hrmem
      · intro h; rw [h] at hf; cases hf
    · rw [hf] at huniq; simp at huniq

-- ─── C1: DM get-or-create, order independence and dedup ──────────────────

/-- C1: for distinct users `A ≠ B`, a first `getOrCreateConversation` call
followed by calls in either argument order all return the same conversation
id, the state is unchanged after the first call (so any further sequential
calls also agree), and at most one `dm` conversation for the pair exists
afterwards; a call with `callerId = otherUserId` is rejected with an error,
which aborts the transaction, so nothing is created. -/
theorem getOrCreateConversation_order_independent
    (A B : UserId) (db : DB) (now now2 now3 : Int)
    (hAB : A ≠ B)
    (h1 : (db.conversations.filter
      (fun c => decide (c.participantIds = sortPair A B))).length ≤ 1)
    (h2 : pairDmCount A B db ≤ 1) :
    (∃ cid db1,
      getOrCreateConversation now A B db = Except.ok (cid, db1) ∧
      getOrCreateConversation now2 B A db1 = Except.ok (cid, db1) ∧
      getOrCreateConversation now3 A B db1 = Except.ok (cid, db1) ∧
      pairDmCount A B db1 ≤ 1) ∧
    (∀ (u : UserId) (n : Int) (d : DB),
      getOrCreateConversation n u u d =
        Except.error "Cannot start a conversation with yourself") := by
  have hBA : B ≠ A := Ne.symm hAB
  have hpred : (fun c : Conversation => decide (c.participantIds.length = 2 ∧
      B ∈ c.participantIds ∧ A ∈ c.participantIds)) =
      (fun c : Conversation => decide (c.participantIds.length = 2 ∧
      A ∈ c.participantIds ∧ B ∈ c.participantIds)) := by
    funext c
    exact decide_eq_decide.mpr (by tauto)
  refine ⟨?_, fun u n d => by simp [getOrCreateConversation]⟩
  rcases hf1 : db.conversations.filter
      (fun c => decide (c.participantIds = sortPair A B)) with _ | ⟨c, _ | ⟨c2, cs⟩⟩
  · -- phase 1 finds nothing
    rcases hfind : (db.conversations.filter (fun x => decide (x.ctype = CType.dm))).find?
        (fun x => decide (x.participantIds.length = 2 ∧
          A ∈ x.participantIds ∧ B ∈ x.participantIds)) with _ | c
    · -- phase 2 finds nothing either: the conversation is created
      have hzero : pairDmCount A B db = 0 := by
        unfold pairDmCount
        have : db.conversations.filter (fun c =>
            decide (c.ctype = CType.dm ∧ c.participantIds.length = 2 ∧
              A ∈ c.participantIds ∧ B ∈ c.participantIds)) = [] := by
          apply List.filter_eq_nil_iff.mpr
          intro x hx hpair
          simp only [decide_eq_true_eq] at hpair
          obtain ⟨hdm, hlen, hA, hB⟩ := hpair
          have hxdm : x ∈ db.conversations.filter
              (fun x => decide (x.ctype = CType.dm)) :=
            List.mem_filter.mpr ⟨hx, by simp [hdm]⟩
          exact absurd (by simp [hlen, hA, hB] :
              (fun x : Conversation => decide (x.participantIds.length = 2 ∧
                A ∈ x.participantIds ∧ B ∈ x.participantIds)) x = true)
            (List.find?_eq_none.mp hfind x hxdm)
        rw [this]
        rfl
      refine ⟨db.nextId, { db with
        conversations := db.conversations ++
          [{ id := db.nextId, ctype := CType.dm, participantIds := sortPair A B }],
        members := db.members ++
          [{ conversationId := db.nextId, userId := A, unreadCount := 0, joinedAt := now },
           { conversationId := db.nextId, userId := B, unreadCount := 0, joinedAt := now }],
        nextId := db.nextId + 1 }, ?_, ?_, ?_, ?_⟩
      · simp only [getOrCreateConversation, if_neg hAB]
        rw [uniqueQ_of_small _ _ h1, hf1, hfind]
        rfl
      · have hflt : (db.conversations ++
            [({ id := db.nextId, ctype := CType.dm,
                participantIds := sortPair A B } : Conversation)]).filter
            (fun c => decide (c.participantIds = sortPair A B)) =
            [({ id := db.nextId, ctype := CType.dm,
                participantIds := sortPair A B } : Conversation)] := by
          rw [List.filter_append, hf1]
          simp
        simp only [getOrCreateConversation, if_neg hBA]
        rw [sortPair_comm B A]
        rw [uniqueQ_of_small _ _ (by rw [hflt]; simp), hflt]
        rfl
      · have hflt : (db.conversations ++
            [({ id := db.nextId, ctype := CType.dm,
                participantIds := sortPair A B } : Conversation)]).filter
            (fun c => decide (c.participantIds = sortPair A B)) =
            [({ id := db.nextId, ctype := CType.dm,
                participantIds := sortPair A B } : Conversation)] := by
          rw [List.filter_append, hf1]
          simp
        simp only [getOrCreateConversation, if_neg hAB]
        rw [uniqueQ_of_small _ _ (by rw [hflt]; simp), hflt]
        rfl
      · unfold pairDmCount
        unfold pairDmCount at hzero
        simp only [List.filter_append, List.length_append, hzero]
        simp [sortPair_length, mem_sortPair]
    · -- phase 2 finds an existing dm for the unordered pair
      have hset : getOrCreateConversation now A B db = Except.ok (c.id, db) := by
        simp only [getOrCreateConversation, if_neg hAB]
        rw [uniqueQ_of_small _ _ h1, hf1, hfind]
        rfl
      have hsetBA : getOrCreateConversation now2 B A db = Except.ok (c.id, db) := by
        simp only [getOrCreateConversation, if_neg hBA]
        rw [sortPair_comm B A]
        rw [uniqueQ_of_small _ _ h1, hf1, hpred, hfind]
        rfl
      have hsetAB : getOrCreateConversation now3 A B db = Except.ok (c.id, db) := by
        simp only [getOrCreateConversation, if_neg hAB]
        rw [uniqueQ_of_small _ _ h1, hf1, hfind]
        rfl
      exact ⟨c.id, db, hset, hsetBA, hsetAB, h2⟩
  · -- phase 1 finds the conversation
    have hset : getOrCreateConversation now A B db = Except.ok (c.id, db) := by
      simp only [getOrCreateConversation, if_neg hAB]
      rw [uniqueQ_of_small _ _ h1, hf1]
      rfl
    have hsetBA : getOrCreateConversation now2 B A db = Except.ok (c.id, db) := by
      simp only [getOrCreateConversation, if_neg hBA]
      rw [sortPair_comm B A]
      rw [uniqueQ_of_small _ _ h1, hf1]
      rfl
    have hsetAB : getOrCreateConversation now3 A B db = Except.ok (c.id, db) := by
      simp only [getOrCreateConversation, if_neg hAB]
      rw [uniqueQ_of_small _ _ h1, hf1]
      rfl
    exact ⟨c.id, db, hset, hsetBA, hsetAB, h2⟩
  · rw [hf1] at h1
    simp at h1

/-- Witness for C1: from the empty database, users 0 and 1. -/
theorem getOrCreateConversation_order_independent_witness :
    (∃ cid db1,
      getOrCreateConversation 5 0 1 ({} : DB) = Except.ok (cid, db1) ∧
      getOrCreateConversation 6 1 0 db1 = Except.ok (cid, db1) ∧
      getOrCreateConversation 7 0 1 db1 = Except.ok (cid, db1) ∧
      pairDmCount 0 1 db1 ≤ 1) ∧
    (∀ (u : UserId) (n : Int) (d : DB),
      getOrCreateConversation n u u d =
        Except.error "Cannot start a conversation with yourself") :=
  getOrCreateConversation_order_independent 0 1 ({} : DB) 5 6 7
    (by decide) (by decide) (by decide)

-- ─── C2: unread fan-out and markRead reset ───────────────────────────────

/-- C2: one successful `sendMessage` increments `unreadCount` by exactly 1
on every member row of the conversation other than the sender's, leaving the
sender's row (and every row of other conversations) unchanged; a subsequent
`markConversationRead` by one member sets exactly that member's
`unreadCount` to 0 and leaves every other row unchanged. -/
theorem sendMessage_markRead_unread
    (db : DB) (conv : ConvId) (sender reader : UserId) (now : Int)
    (text : String) (replyTo : Option MsgId)
    (htext : ¬ trimString text = "")
    (hsender : (db.members.filter
      (fun m => decide (m.userId = sender ∧ m.conversationId = conv))).length = 1)
    (hreader : (db.members.filter
      (fun m => decide (m.userId = reader ∧ m.conversationId = conv))).length = 1) :
    ∃ mid db1 db2,
      sendMessage now sender conv text replyTo db = Except.ok (mid, db1) ∧
      db1.members = db.members.map (fun m =>
        if m.conversationId = conv ∧ m.userId ≠ sender then
          { m with unreadCount := m.unreadCount + 1 } else m) ∧
      markConversationRead reader conv none db1 = Except.ok ((), db2) ∧
      db2.members = db1.members.map (fun m =>
        if m.userId = reader ∧ m.conversationId = conv then
          { m with unreadCount := 0 } else m) := by
  have hsender1 : (db.members.filter
      (fun m => decide (m.userId = sender ∧ m.conversationId = conv))).length ≤ 1 := by
    omega
  rcases hfs : db.members.filter
      (fun m => decide (m.userId = sender ∧ m.conversationId = conv)) with _ | ⟨m0, rest⟩
  · rw [hfs] at hsender; cases hsender
  rcases rest with _ | ⟨m1, rest'⟩
  swap
  · rw [hfs] at hsender; simp at hsender
  have hset1 : sendMessage now sender conv text replyTo db = Except.ok (db.nextId,
      { db with
        messages := db.messages ++
          [{ id := db.nextId, creationTime := now, conversationId := conv,
             senderId := sender, text := trimString text, sentAt := some now,
             replyToId := replyTo, deleted := false, edited := some false }],
        conversations := patchFirst (fun c => decide (c.id = conv))
          (fun c => { c with
            lastMessageId := some db.nextId,
            lastMessageText := some (truncateText (trimString text)),
            lastMessageTime := some now,
            lastMessageSenderId := some sender })
          db.conversations,
        members := db.members.map (fun m =>
          if m.conversationId = conv ∧ m.userId ≠ sender then
            { m with unreadCount := m.unreadCount + 1 }
          else m),
        nextId := db.nextId + 1 }) := by
    simp only [sendMessage, if_neg htext]
    rw [uniqueQ_of_small _ _ hsender1, hfs]
    rfl
  have hcount : ∀ (l : List Member),
      ((l.map (fun m => if m.conversationId = conv ∧ m.userId ≠ sender then
          { m with unreadCount := m.unreadCount + 1 } else m)).filter
        (fun m => decide (m.userId = reader ∧ m.conversationId = conv))).length =
      (l.filter (fun m => decide (m.userId = reader ∧ m.conversationId = conv))).length := by
    intro l
    rw [← List.countP_eq_length_filter, ← List.countP_eq_length_filter, List.countP_map]
    apply List.countP_congr
    intro m _
    by_cases h : m.conversationId = conv ∧ m.userId ≠ sender <;> simp [h, Function.comp]
  rcases hfr : (db.members.map (fun m =>
        if m.conversationId = conv ∧ m.userId ≠ sender then
          { m with unreadCount := m.unreadCount + 1 } else m)).filter
      (fun m => decide (m.userId = reader ∧ m.conversationId = conv)) with _ | ⟨r0, rrest⟩
  · have hlen := hcount db.members
    rw [hfr, hreader] at hlen
    simp at hlen
  rcases rrest with _ | ⟨r1, rrest'⟩
  swap
  · have hlen := hcount db.members
    rw [hfr, hreader] at hlen
    simp at hlen
  obtain ⟨db1, hset1', hmem1⟩ : ∃ db1,
      sendMessage now sender conv text replyTo db = Except.ok (db.nextId, db1) ∧
      db1.members = db.members.map (fun m =>
        if m.conversationId = conv ∧ m.userId ≠ sender then
          { m with unreadCount := m.unreadCount + 1 } else m) :=
    ⟨_, hset1, rfl⟩
  have hreader1 : ((db1.members).filter
      (fun m => decide (m.userId = reader ∧ m.conversationId = conv))).length ≤ 1 := by
    rw [hmem1, hfr]
    simp
  have hset2 : markConversationRead reader conv none db1 = Except.ok ((), { db1 with
      members := patchFirst
        (fun m => decide (m.userId = reader ∧ m.conversationId = conv))
        (fun m => { m with
          unreadCount := 0,
          lastReadMessageId := match (none : Option MsgId) with
            | some x => some x
            | none => m.lastReadMessageId }) db1.members }) := by
    unfold markConversationRead
    rw [uniqueQ_of_small _ _ hreader1, hmem1, hfr]
    rfl
  refine ⟨db.nextId, db1, _, hset1', hmem1, hset2, ?_⟩
  show patchFirst (fun m : Member => decide (m.userId = reader ∧ m.conversationId = conv)) _ _ = _
  rw [patchFirst_eq_map _ _ _ hreader1]
  apply List.map_congr_left
  intro m _
  by_cases h : m.userId = reader ∧ m.conversationId = conv
  · simp [h]
  · simp only [if_neg h]
    have hfalse : decide (m.userId = reader ∧ m.conversationId = conv) = false := by
      simp [h]
    simp [hfalse]

/-- Witness for C2: conversation 1 with sender 0 and members 1 and 2. -/
theorem sendMessage_markRead_unread_witness :
    ∃ mid db1 db2,
      sendMessage 50 0 1 "hello" none exMembersDB = Except.ok (mid, db1) ∧
      db1.members = exMembersDB.members.map (fun m =>
        if m.conversationId = 1 ∧ m.userId ≠ 0 then
          { m with unreadCount := m.unreadCount + 1 } else m) ∧
      markConversationRead 1 1 none db1 = Except.ok ((), db2) ∧
      db2.members = db1.members.map (fun m =>
        if m.userId = 1 ∧ m.conversationId = 1 then
          { m with unreadCount := 0 } else m) :=
  sendMessage_markRead_unread exMembersDB 1 0 1 50 "hello" none
    (by decide) (by decide) (by decide)

-- ─── C3 / C9: soft delete, tombstone projection and snapshot frame ───────

theorem find?_patchFirst (p : α → Bool) (f : α → α) {l : List α} {x : α}
    (hpres : ∀ y, p (f y) = p y) (h : l.find? p = some x) :
    (patchFirst p f l).find? p = some (f x) := by
  induction l with
  | nil => cases h
  | cons y ys ih =>
    by_cases hy : p y
    · rw [List.find?_cons_of_pos _ hy] at h
      obtain rfl : y = x := by injection h
      simp only [patchFirst, hy, if_true]
      exact List.find?_cons_of_pos _ (by rw [hpres]; exact hy)
    · rw [List.find?_cons_of_neg _ hy] at h
      have hstep : patchFirst p f (y :: ys) = y :: patchFirst p f ys := by
        simp [patchFirst, hy]
      rw [hstep, List.find?_cons_of_neg _ hy]
      exact ih h

theorem viewMessage_tombstone (users : List User) (M : Message) (now : Int)
    (m : Message) :
    viewMessage users (if decide (m.id = M.id) = true then
        { m with deleted := true, deletedAt := some now } else m) =
      (if (viewMessage users m).id = M.id then
        { viewMessage users m with
          text := none, deleted := true, deletedAt := some now,
          edited := false, editedAt := none }
      else viewMessage users m) := by
  have hvid : (viewMessage users m).id = m.id := by
    unfold viewMessage
    by_cases hdel : m.deleted <;> simp [hdel]
  by_cases hid : m.id = M.id
  · rw [if_pos (by simp [hid]), if_pos (by rw [hvid]; exact hid)]
    by_cases hdel : m.deleted <;> simp [viewMessage, hdel]
  · rw [if_neg (by simp [hid]), if_neg (by rw [hvid]; exact hid)]

/-- C3: after a successful `deleteMessage` by the sender, the `listMessages`
row for that message carries `text = none` and `edited = false` (and
`editedAt = none`) regardless of prior edit history, while its id,
`_creationTime`, `sentAt`, sender fields and `replyToId` are unchanged; every
other row of the listing is unchanged, so the pre-deletion text never appears
in the output for that message. -/
theorem deleteMessage_listMessages_tombstone
    (db : DB) (M : Message) (now : Int)
    (hfind : db.messages.find? (fun m => decide (m.id = M.id)) = some M)
    (hMuniq : (db.messages.filter (fun m => decide (m.id = M.id))).length ≤ 1) :
    ∃ db1, deleteMessage now M.senderId M.id db = Except.ok ((), db1) ∧
      ∀ conv, listMessages conv db1 = (listMessages conv db).map (fun v =>
        if v.id = M.id then
          { v with text := none, deleted := true, deletedAt := some now,
                   edited := false, editedAt := none }
        else v) := by
  have hmsgs : ∀ (dbx : DB), dbx.users = db.users →
      dbx.messages = patchFirst (fun m => decide (m.id = M.id))
        (fun m => { m with deleted := true, deletedAt := some now }) db.messages →
      ∀ conv, listMessages conv dbx = (listMessages conv db).map (fun v =>
        if v.id = M.id then
          { v with text := none, deleted := true, deletedAt := some now,
                   edited := false, editedAt := none }
        else v) := by
    intro dbx hu hm conv
    unfold listMessages
    rw [hu, hm, patchFirst_eq_map _ _ _ hMuniq]
    have hcomp : ((fun m : Message => decide (m.conversationId = conv)) ∘
        (fun x => if decide (x.id = M.id) = true then
          { x with deleted := true, deletedAt := some now } else x)) =
        (fun m : Message => decide (m.conversationId = conv)) := by
      funext x
      by_cases hx : decide (x.id = M.id) = true <;> simp [Function.comp, hx]
    rw [List.filter_map, hcomp, List.map_map, List.map_map]
    apply List.map_congr_left
    intro m _
    exact viewMessage_tombstone db.users M now m
  rcases hc : db.conversations.find?
      (fun c => decide (c.id = M.conversationId)) with _ | c
  · have hset : deleteMessage now M.senderId M.id db = Except.ok ((), { db with
        messages := patchFirst (fun m => decide (m.id = M.id))
          (fun m => { m with deleted := true, deletedAt := some now })
          db.messages }) := by
      simp [deleteMessage, hfind, hc]
    exact ⟨_, hset, hmsgs _ rfl rfl⟩
  · by_cases hlast : c.lastMessageId = some M.id
    · have hset : deleteMessage now M.senderId M.id db = Except.ok ((), { db with
          messages := patchFirst (fun m => decide (m.id = M.id))
            (fun m => { m with deleted := true, deletedAt := some now })
            db.messages,
          conversations := patchFirst
            (fun c => decide (c.id = M.conversationId))
            (fun c => { c with lastMessageText := some "Message deleted" })
            db.conversations }) := by
        simp [deleteMessage, hfind, hc, hlast]
      exact ⟨_, hset, hmsgs _ rfl rfl⟩
    · have hset : deleteMessage now M.senderId M.id db = Except.ok ((), { db with
          messages := patchFirst (fun m => decide (m.id = M.id))
            (fun m => { m with deleted := true, deletedAt := some now })
            db.messages }) := by
        simp [deleteMessage, hfind, hc, hlast]
      exact ⟨_, hset, hmsgs _ rfl rfl⟩

/-- C9: a successful `deleteMessage` by the sender, when the deleted message
is the conversation's snapshot last message, replaces only the snapshot's
`lastMessageText` with the fixed marker `"Message deleted"`, leaving
`lastMessageId`, `lastMessageTime` and `lastMessageSenderId` stale; when the
message is not the snapshot last message (or the conversation row is absent),
no conversation field changes. -/
theorem deleteMessage_snapshot_frame
    (db : DB) (M : Message) (now : Int)
    (hfind : db.messages.find? (fun m => decide (m.id = M.id)) = some M) :
    ∃ db1, deleteMessage now M.senderId M.id db = Except.ok ((), db1) ∧
      (∀ c, db.conversations.find? (fun x => decide (x.id = M.conversationId)) = some c →
        (c.lastMessageId = some M.id →
          db1.conversations = patchFirst (fun x => decide (x.id = M.conversationId))
            (fun x => { x with lastMessageText := some "Message deleted" })
            db.conversations ∧
          db1.conversations.find? (fun x => decide (x.id = M.conversationId)) =
            some { c with lastMessageText := some "Message deleted" }) ∧
        (¬ c.lastMessageId = some M.id → db1.conversations = db.conversations)) ∧
      (db.conversations.find? (fun x => decide (x.id = M.conversationId)) = none →
        db1.conversations = db.conversations) := by
  rcases hc : db.conversations.find?
      (fun c => decide (c.id = M.conversationId)) with _ | c
  · have hset : deleteMessage now M.senderId M.id db = Except.ok ((), { db with
        messages := patchFirst (fun m => decide (m.id = M.id))
          (fun m => { m with deleted := true, deletedAt := some now })
          db.messages }) := by
      simp [deleteMessage, hfind, hc]
    refine ⟨_, hset, ?_, fun _ => rfl⟩
    intro c hc'
    rw [hc] at hc'
    cases hc'
  · by_cases hlast : c.lastMessageId = some M.id
    · have hset : deleteMessage now M.senderId M.id db = Except.ok ((), { db with
          messages := patchFirst (fun m => decide (m.id = M.id))
            (fun m => { m with deleted := true, deletedAt := some now })
            db.messages,
          conversations := patchFirst
            (fun c => decide (c.id = M.conversationId))
            (fun c => { c with lastMessageText := some "Message deleted" })
            db.conversations }) := by
        simp [deleteMessage, hfind, hc, hlast]
      refine ⟨_, hset, ?_, ?_⟩
      · intro c' hc'
        rw [hc] at hc'
        cases hc'
        refine ⟨fun _ => ⟨rfl, ?_⟩, fun h => absurd hlast h⟩
        exact find?_patchFirst _ _ (fun y => rfl) hc
      · intro h
        rw [hc] at h
        cases h
    · have hset : deleteMessage now M.senderId M.id db = Except.ok ((), { db with
          messages := patchFirst (fun m => decide (m.id = M.id))
            (fun m => { m with deleted := true, deletedAt := some now })
            db.messages }) := by
        simp [deleteMessage, hfind, hc, hlast]
      refine ⟨_, hset, ?_, fun _ => rfl⟩
      intro c' hc'
      rw [hc] at hc'
      cases hc'
      exact ⟨fun h => absurd h hlast, fun _ => rfl⟩

-- ─── C4: reaction toggle ─────────────────────────────────────────────────

theorem mem_firstKeys {x : String} : ∀ {l : List String}, x ∈ firstKeys l ↔ x ∈ l := by
  intro l
  induction l with
  | nil => simp [firstKeys]
  | cons e es ih =>
    simp only [firstKeys, List.mem_cons]
    constructor
    · rintro (h | h)
      · exact Or.inl h
      · exact Or.inr (ih.mp (List.mem_of_mem_filter h))
    · rintro (h | h)
      · exact Or.inl h
      · by_cases hx : x = e
        · exact Or.inl hx
        · exact Or.inr (List.mem_filter.mpr ⟨ih.mpr h, by simp [hx]⟩)

theorem firstKeys_nodup : ∀ (l : List String), (firstKeys l).Nodup := by
  intro l
  induction l with
  | nil => exact List.nodup_nil
  | cons e es ih =>
    rw [show firstKeys (e :: es) =
        e :: (firstKeys es).filter (fun x => decide (x ≠ e)) from rfl,
      List.nodup_cons]
    refine ⟨?_, List.Nodup.filter _ ih⟩
    intro hmem
    rcases List.mem_filter.mp hmem with ⟨_, hne⟩
    simp at hne

theorem insertByCount_perm (g : ReactionGroup) (l : List ReactionGroup) :
    (insertByCount g l).Perm (g :: l) := by
  induction l with
  | nil => exact List.Perm.refl _
  | cons h t ih =>
    unfold insertByCount
    by_cases hc : h.count > g.count
    · rw [if_pos hc]
      exact (List.Perm.cons h ih).trans (List.Perm.swap g h t)
    · rw [if_neg hc]

theorem sortByCountDesc_perm (l : List ReactionGroup) :
    (sortByCountDesc l).Perm l := by
  induction l with
  | nil => exact List.Perm.refl _
  | cons h t ih =>
    exact (insertByCount_perm h _).trans (List.Perm.cons h ih)

theorem filter_eq_of_nodup {α : Type} [DecidableEq α] (l : List α) (hn : l.Nodup) (e : α) :
    l.filter (fun x => decide (x = e)) = if e ∈ l then [e] else [] := by
  induction l with
  | nil => simp
  | cons a as ih =>
    rw [List.nodup_cons] at hn
    by_cases hae : a = e
    · subst hae
      rw [List.filter_cons_of_pos (by simp), if_pos (List.mem_cons_self a as)]
      have hfe : as.filter (fun x => decide (x = a)) = [] := by
        apply List.filter_eq_nil_iff.mpr
        intro x hx
        simp only [decide_eq_true_eq]
        intro hxa
        exact hn.1 (hxa ▸ hx)
      rw [hfe]
    · rw [List.filter_cons_of_neg (by simp [hae]), ih hn.2]
      by_cases he : e ∈ as
      · rw [if_pos he, if_pos (List.mem_cons_of_mem _ he)]
      · have hnotin : e ∉ a :: as := by
          simp only [List.mem_cons, not_or]
          exact ⟨fun h => hae h.symm, he⟩
        rw [if_neg he, if_neg hnotin]

/-- The count the grouped view reports for an emoji is the number of rows
with that (message, emoji) pair. -/
theorem reportedCount_getReactions (v : UserId) (mid : MsgId) (e : String)
    (db : DB) :
    reportedCount (getReactions v mid db) e =
      (db.reactions.filter
        (fun r => decide (r.messageId = mid ∧ r.emoji = e))).length := by
  have hrows : (db.reactions.filter
      (fun r => decide (r.messageId = mid ∧ r.emoji = e))) =
      ((db.reactions.filter (fun r => decide (r.messageId = mid))).filter
        (fun r => decide (r.emoji = e))) := by
    rw [List.filter_filter]
    apply List.filter_congr
    intro x _
    rw [Bool.decide_and, Bool.and_comm]
  have hmain : ∀ (rows : List Reaction),
      reportedCount (sortByCountDesc ((firstKeys (rows.map Reaction.emoji)).map
        (fun e' =>
          ({ emoji := e',
             count := (rows.filter (fun r => decide (r.emoji = e'))).length,
             userIds := (rows.filter (fun r => decide (r.emoji = e'))).map
               Reaction.userId,
             selfReacted := (rows.filter (fun r => decide (r.emoji = e'))).any
               (fun r => decide (r.userId = v)) } : ReactionGroup)))) e =
      (rows.filter (fun r => decide (r.emoji = e))).length := by
    intro rows
    have hperm := sortByCountDesc_perm ((firstKeys (rows.map Reaction.emoji)).map
      (fun e' =>
        ({ emoji := e',
           count := (rows.filter (fun r => decide (r.emoji = e'))).length,
           userIds := (rows.filter (fun r => decide (r.emoji = e'))).map
             Reaction.userId,
           selfReacted := (rows.filter (fun r => decide (r.emoji = e'))).any
             (fun r => decide (r.userId = v)) } : ReactionGroup)))
    have hfp := List.Perm.filter (fun g : ReactionGroup => decide (g.emoji = e)) hperm
    have hgroups : ((firstKeys (rows.map Reaction.emoji)).map
        (fun e' =>
          ({ emoji := e',
             count := (rows.filter (fun r => decide (r.emoji = e'))).length,
             userIds := (rows.filter (fun r => decide (r.emoji = e'))).map
               Reaction.userId,
             selfReacted := (rows.filter (fun r => decide (r.emoji = e'))).any
               (fun r => decide (r.userId = v)) } : ReactionGroup))).filter
        (fun g => decide (g.emoji = e)) =
        ((firstKeys (rows.map Reaction.emoji)).filter
          (fun x => decide (x = e))).map
          (fun e' =>
            ({ emoji := e',
               count := (rows.filter (fun r => decide (r.emoji = e'))).length,
               userIds := (rows.filter (fun r => decide (r.emoji = e'))).map
                 Reaction.userId,
               selfReacted := (rows.filter (fun r => decide (r.emoji = e'))).any
                 (fun r => decide (r.userId = v)) } : ReactionGroup)) := by
      rw [List.filter_map]
      congr 1
    rw [filter_eq_of_nodup _ (firstKeys_nodup _) e] at hgroups
    unfold reportedCount
    rw [find?_eq_head?_filter]
    by_cases he : e ∈ firstKeys (rows.map Reaction.emoji)
    · rw [if_pos he] at hgroups
      simp only [List.map_cons, List.map_nil] at hgroups
      have hone := hfp
      rw [hgroups] at hone
      rw [List.perm_singleton.mp hone]
      rfl
    · rw [if_neg he] at hgroups
      simp only [List.map_nil] at hgroups
      have hnil := hfp
      rw [hgroups] at hnil
      rw [hnil.eq_nil]
      have hre : rows.filter (fun r => decide (r.emoji = e)) = [] := by
        apply List.filter_eq_nil_iff.mpr
        intro r hr
        simp only [decide_eq_true_eq]
        intro hemoji
        apply he
        rw [mem_firstKeys]
        exact hemoji ▸ List.mem_map_of_mem Reaction.emoji hr
      rw [hre]
      rfl
  rw [hrows]
  exact hmain (db.reactions.filter (fun r => decide (r.messageId = mid)))

/-- Counts reported by the grouped view only depend on the multiset of
(message, user, emoji) triples. -/
theorem reportedCount_eq_of_triples_perm (dbA dbB : DB)
    (hperm : (dbA.reactions.map tripleOf).Perm (dbB.reactions.map tripleOf))
    (v : UserId) (mid : MsgId) (e : String) :
    reportedCount (getReactions v mid dbA) e =
      reportedCount (getReactions v mid dbB) e := by
  rw [reportedCount_getReactions, reportedCount_getReactions,
    ← List.countP_eq_length_filter, ← List.countP_eq_length_filter]
  have hA : dbA.reactions.countP
      (fun r => decide (r.messageId = mid ∧ r.emoji = e)) =
      (dbA.reactions.map tripleOf).countP
        (fun t => decide (t.1 = mid ∧ t.2.2 = e)) := by
    rw [List.countP_map]
    rfl
  have hB : dbB.reactions.countP
      (fun r => decide (r.messageId = mid ∧ r.emoji = e)) =
      (dbB.reactions.map tripleOf).countP
        (fun t => decide (t.1 = mid ∧ t.2.2 = e)) := by
    rw [List.countP_map]
    rfl
  rw [hA, hB, List.Perm.countP_eq _ hperm]

/-- Counterexample to C4 as stated: toggling twice at later times does not
restore the reactions table literally, because the re-inserted row carries a
fresh `createdAt`. -/
theorem toggleReaction_not_involution :
    ∃ db1 db2, toggleReaction 1 7 5 "a" exReactDB = Except.ok ((), db1) ∧
      toggleReaction 2 7 5 "a" db1 = Except.ok ((), db2) ∧
      ¬ db2.reactions = exReactDB.reactions := by
  refine ⟨{ exReactDB with reactions := [] },
    { exReactDB with reactions :=
        [{ messageId := 5, userId := 7, emoji := "a", createdAt := 2 }] },
    ?_, ?_, ?_⟩
  · rfl
  · rfl
  · decide

/-- C4 (amended): toggling the same (message, user, emoji) twice restores
the multiset of (message, user, emoji) reaction triples — and therefore every
count reported by the grouped view — though the re-inserted row's
`createdAt` may differ from the original row's; each single toggle changes
the grouped-view count reported for that emoji on that message by exactly
plus 1 (row absent) or minus 1 (row present). -/
theorem toggleReaction_inverse_on_triples
    (db : DB) (M : Message) (u : UserId) (e : String) (t1 t2 : Int)
    (hfind : db.messages.find? (fun m => decide (m.id = M.id)) = some M)
    (hdel : M.deleted = false)
    (huniq : (db.reactions.filter (fun r =>
      decide (r.messageId = M.id ∧ r.userId = u ∧ r.emoji = e))).length ≤ 1) :
    ∃ db1 db2,
      toggleReaction t1 u M.id e db = Except.ok ((), db1) ∧
      toggleReaction t2 u M.id e db1 = Except.ok ((), db2) ∧
      (db2.reactions.map tripleOf).Perm (db.reactions.map tripleOf) ∧
      (∀ v mid' e', reportedCount (getReactions v mid' db2) e' =
        reportedCount (getReactions v mid' db) e') ∧
      ((db.reactions.filter (fun r =>
          decide (r.messageId = M.id ∧ r.userId = u ∧ r.emoji = e))) = [] →
        ∀ v, reportedCount (getReactions v M.id db1) e =
          reportedCount (getReactions v M.id db) e + 1) ∧
      (∀ r0, (db.reactions.filter (fun r =>
          decide (r.messageId = M.id ∧ r.userId = u ∧ r.emoji = e))) = [r0] →
        ∀ v, reportedCount (getReactions v M.id db1) e + 1 =
          reportedCount (getReactions v M.id db) e) := by
  rcases hf : db.reactions.filter (fun r =>
      decide (r.messageId = M.id ∧ r.userId = u ∧ r.emoji = e)) with _ | ⟨r0, _ | ⟨r1, rest⟩⟩
  · -- row absent: first toggle inserts, second deletes the inserted row
    have hnot := List.filter_eq_nil_iff.mp hf
    have hset1 : toggleReaction t1 u M.id e db = Except.ok ((), { db with
        reactions := db.reactions ++
          [({ messageId := M.id, userId := u, emoji := e, createdAt := t1 } : Reaction)] }) := by
      have huniq2 := huniq
      have hf2 := hf
      simp only [Bool.decide_and] at huniq2 hf2
      simp [toggleReaction, hfind, hdel, uniqueQ_of_small _ _ huniq2, hf2]
      try rfl
    have hfapp : (db.reactions ++
        [({ messageId := M.id, userId := u, emoji := e, createdAt := t1 } : Reaction)]).filter
        (fun r => decide (r.messageId = M.id ∧ r.userId = u ∧ r.emoji = e)) =
        [({ messageId := M.id, userId := u, emoji := e, createdAt := t1 } : Reaction)] := by
      rw [List.filter_append, hf]
      simp
    have hle1 : ((db.reactions ++
        [({ messageId := M.id, userId := u, emoji := e, createdAt := t1 } : Reaction)]).filter
        (fun r => decide (r.messageId = M.id ∧ r.userId = u ∧
          r.emoji = e))).length ≤ 1 := by
      rw [hfapp]
      simp
    have hset2 : toggleReaction t2 u M.id e ({ db with
        reactions := db.reactions ++
          [({ messageId := M.id, userId := u, emoji := e, createdAt := t1 } : Reaction)] } : DB) =
        Except.ok ((), { db with
          reactions := (db.reactions ++
            [({ messageId := M.id, userId := u, emoji := e, createdAt := t1 } : Reaction)]).eraseP
            (fun r => decide (r.messageId = M.id ∧ r.userId = u ∧
              r.emoji = e)) }) := by
      have hle12 := hle1
      have hfapp2 := hfapp
      simp only [Bool.decide_and] at hle12 hfapp2
      simp [toggleReaction, hfind, hdel, uniqueQ_of_small _ _ hle12, hfapp2]
      try rfl
    have herase : (db.reactions ++
        [({ messageId := M.id, userId := u, emoji := e, createdAt := t1 } : Reaction)]).eraseP
        (fun r => decide (r.messageId = M.id ∧ r.userId = u ∧ r.emoji = e)) =
        db.reactions := by
      rw [List.eraseP_append_right _ hnot]
      simp [List.eraseP_cons]
    have hperm : ((({ db with
        reactions := (db.reactions ++
          [({ messageId := M.id, userId := u, emoji := e, createdAt := t1 } : Reaction)]).eraseP
          (fun r => decide (r.messageId = M.id ∧ r.userId = u ∧
            r.emoji = e)) } : DB)).reactions.map tripleOf).Perm
        (db.reactions.map tripleOf) := by
      show (((db.reactions ++
        [({ messageId := M.id, userId := u, emoji := e, createdAt := t1 } : Reaction)]).eraseP
        (fun r => decide (r.messageId = M.id ∧ r.userId = u ∧
          r.emoji = e))).map tripleOf).Perm (db.reactions.map tripleOf)
      rw [herase]
    refine ⟨_, _, hset1, hset2, hperm, ?_, ?_, ?_⟩
    · exact fun v mid' e' => reportedCount_eq_of_triples_perm _ _ hperm v mid' e'
    · intro _ v
      rw [reportedCount_getReactions, reportedCount_getReactions]
      show ((db.reactions ++
        [({ messageId := M.id, userId := u, emoji := e, createdAt := t1 } : Reaction)]).filter
        (fun r => decide (r.messageId = M.id ∧ r.emoji = e))).length =
        (db.reactions.filter
          (fun r => decide (r.messageId = M.id ∧ r.emoji = e))).length + 1
      rw [List.filter_append]
      simp
    · intro r0 h
      rw [hf] at h
      cases h
  · -- exactly one row present: first toggle deletes it, second re-inserts
    have hr0mem : r0 ∈ db.reactions.filter (fun r =>
        decide (r.messageId = M.id ∧ r.userId = u ∧ r.emoji = e)) := by
      rw [hf]
      exact List.mem_cons_self _ _
    obtain ⟨hr0in, hr0p⟩ := List.mem_filter.mp hr0mem
    obtain ⟨a, l1, l2, hl1, hpa, hsplit, herase⟩ :=
      @List.exists_of_eraseP Reaction
        (fun r => decide (r.messageId = M.id ∧ r.userId = u ∧ r.emoji = e))
        db.reactions r0 hr0in hr0p
    have hpa' : a.messageId = M.id ∧ a.userId = u ∧ a.emoji = e := by
      simpa using hpa
    have hset1 : toggleReaction t1 u M.id e db = Except.ok ((), { db with
        reactions := db.reactions.eraseP
          (fun r => decide (r.messageId = M.id ∧ r.userId = u ∧
            r.emoji = e)) }) := by
      have huniq2 := huniq
      have hf2 := hf
      simp only [Bool.decide_and] at huniq2 hf2
      simp [toggleReaction, hfind, hdel, uniqueQ_of_small _ _ huniq2, hf2]
      try rfl
    have hf1 : ((db.reactions.eraseP
        (fun r => decide (r.messageId = M.id ∧ r.userId = u ∧
          r.emoji = e))).filter
        (fun r => decide (r.messageId = M.id ∧ r.userId = u ∧
          r.emoji = e))) = [] := by
      rw [filter_eraseP, hf]
      rfl
    have hle1 : ((db.reactions.eraseP
        (fun r => decide (r.messageId = M.id ∧ r.userId = u ∧
          r.emoji = e))).filter
        (fun r => decide (r.messageId = M.id ∧ r.userId = u ∧
          r.emoji = e))).length ≤ 1 := by
      rw [hf1]
      simp
    have hset2 : toggleReaction t2 u M.id e ({ db with
        reactions := db.reactions.eraseP
          (fun r => decide (r.messageId = M.id ∧ r.userId = u ∧
            r.emoji = e)) } : DB) =
        Except.ok ((), { db with
          reactions := db.reactions.eraseP
            (fun r => decide (r.messageId = M.id ∧ r.userId = u ∧
              r.emoji = e)) ++
            [({ messageId := M.id, userId := u, emoji := e, createdAt := t2 } : Reaction)] }) := by
      have hle12 := hle1
      have hf12 := hf1
      simp only [Bool.decide_and] at hle12 hf12
      simp [toggleReaction, hfind, hdel, uniqueQ_of_small _ _ hle12, hf12]
      try rfl
    have htr : tripleOf ({ messageId := M.id, userId := u, emoji := e, createdAt := t2 } : Reaction) = tripleOf a := by
      simp [tripleOf, hpa'.1, hpa'.2.1, hpa'.2.2]
    have hperm : ((({ db with
        reactions := db.reactions.eraseP
          (fun r => decide (r.messageId = M.id ∧ r.userId = u ∧
            r.emoji = e)) ++
          [({ messageId := M.id, userId := u, emoji := e,
              createdAt := t2 } : Reaction)] } : DB)).reactions.map tripleOf).Perm
        (db.reactions.map tripleOf) := by
      show (((db.reactions.eraseP
        (fun r => decide (r.messageId = M.id ∧ r.userId = u ∧ r.emoji = e)) ++
        [({ messageId := M.id, userId := u, emoji := e,
            createdAt := t2 } : Reaction)]).map tripleOf).Perm (db.reactions.map tripleOf))
      rw [herase, hsplit]
      simp only [List.map_append, List.map_cons, List.map_nil]
      rw [List.append_assoc]
      apply List.Perm.append_left
      rw [htr]
      exact List.perm_append_singleton _ _
    refine ⟨_, _, hset1, hset2, hperm, ?_, ?_, ?_⟩
    · exact fun v mid' e' => reportedCount_eq_of_triples_perm _ _ hperm v mid' e'
    · intro h
      rw [hf] at h
      cases h
    · intro r0' h v
      rw [reportedCount_getReactions, reportedCount_getReactions]
      show ((db.reactions.eraseP
        (fun r => decide (r.messageId = M.id ∧ r.userId = u ∧
          r.emoji = e))).filter
        (fun r => decide (r.messageId = M.id ∧ r.emoji = e))).length + 1 =
        (db.reactions.filter
          (fun r => decide (r.messageId = M.id ∧ r.emoji = e))).length
      rw [herase, hsplit]
      have hqa : (fun r : Reaction =>
          decide (r.messageId = M.id ∧ r.emoji = e)) a = true := by
        simp [hpa'.1, hpa'.2.2]
      simp only [List.filter_append, List.filter_cons, hqa, if_true,
        List.length_append, List.length_cons]
      omega
  · rw [hf] at huniq
    simp at huniq

/-- Witness for the amended C4 at the concrete state `exReactDB`. -/
theorem toggleReaction_inverse_on_triples_witness :
    ∃ db1 db2,
      toggleReaction 1 7 exReactMsg.id "a" exReactDB = Except.ok ((), db1) ∧
      toggleReaction 2 7 exReactMsg.id "a" db1 = Except.ok ((), db2) ∧
      (db2.reactions.map tripleOf).Perm (exReactDB.reactions.map tripleOf) ∧
      (∀ v mid' e', reportedCount (getReactions v mid' db2) e' =
        reportedCount (getReactions v mid' exReactDB) e') ∧
      ((exReactDB.reactions.filter (fun r =>
          decide (r.messageId = exReactMsg.id ∧ r.userId = 7 ∧ r.emoji = "a"))) = [] →
        ∀ v, reportedCount (getReactions v exReactMsg.id db1) "a" =
          reportedCount (getReactions v exReactMsg.id exReactDB) "a" + 1) ∧
      (∀ r0, (exReactDB.reactions.filter (fun r =>
          decide (r.messageId = exReactMsg.id ∧ r.userId = 7 ∧ r.emoji = "a"))) = [r0] →
        ∀ v, reportedCount (getReactions v exReactMsg.id db1) "a" + 1 =
          reportedCount (getReactions v exReactMsg.id exReactDB) "a") :=
  toggleReaction_inverse_on_triples exReactDB exReactMsg 7 "a" 1 2
    (by decide) (by decide) (by decide)

-- ─── C8: group admin invariant ───────────────────────────────────────────

theorem mem_dedupFirst {x : UserId} : ∀ {l : List UserId}, x ∈ dedupFirst l ↔ x ∈ l := by
  intro l
  induction l with
  | nil => simp [dedupFirst]
  | cons e es ih =>
    simp only [dedupFirst, List.mem_cons]
    constructor
    · rintro (h | h)
      · exact Or.inl h
      · exact Or.inr (ih.mp (List.mem_of_mem_filter h))
    · rintro (h | h)
      · exact Or.inl h
      · by_cases hx : x = e
        · exact Or.inl hx
        · exact Or.inr (List.mem_filter.mpr ⟨ih.mpr h, by simp [hx]⟩)

theorem dedupFirst_nodup : ∀ (l : List UserId), (dedupFirst l).Nodup := by
  intro l
  induction l with
  | nil => exact List.nodup_nil
  | cons e es ih =>
    rw [show dedupFirst (e :: es) =
        e :: (dedupFirst es).filter (fun y => decide (y ≠ e)) from rfl,
      List.nodup_cons]
    refine ⟨?_, List.Nodup.filter _ ih⟩
    intro hmem
    rcases List.mem_filter.mp hmem with ⟨_, hne⟩
    simp at hne

theorem createGroup_ok (now : Int) (u : UserId) (nm : String) (ms : List UserId)
    (img : Option String) (db : DB) (cid : ConvId) (db' : DB)
    (h : createGroup now u nm ms img db = Except.ok (cid, db')) :
    cid = db.nextId ∧ db' = { db with
      conversations := db.conversations ++
        [{ id := db.nextId, ctype := CType.group, name := some (trimString nm),
           imageUrl := img, createdBy := some u,
           participantIds := dedupFirst (u :: ms) }],
      members := db.members ++ (dedupFirst (u :: ms)).map (fun memberId =>
        {
          conversationId := db.nextId,
          userId := memberId,
          unreadCount := 0,
          role := some (if memberId = u then Role.admin else Role.member),
          joinedAt := now }),
      nextId := db.nextId + 1 } := by
  simp only [createGroup] at h
  by_cases h1 : trimString nm = ""
  · rw [if_pos h1] at h
    cases h
  · rw [if_neg h1] at h
    by_cases h2 : (dedupFirst (u :: ms)).length < 2
    · rw [if_pos h2] at h
      cases h
    · rw [if_neg h2] at h
      simp only [Except.ok.injEq, Prod.mk.injEq] at h
      exact ⟨h.1.symm, h.2.symm⟩

theorem createGroup_inv (db : DB) (hI : GroupInv db) (now : Int) (u : UserId)
    (nm : String) (ms : List UserId) (img : Option String) (cid : ConvId)
    (db' : DB) (h : createGroup now u nm ms img db = Except.ok (cid, db')) :
    GroupInv db' := by
  obtain ⟨hcid, hdb⟩ := createGroup_ok now u nm ms img db cid db' h
  subst hdb
  constructor
  · intro c hc
    rcases List.mem_append.mp hc with h' | h'
    · exact Nat.lt_succ_of_lt (hI.fresh_conv c h')
    · simp only [List.mem_singleton] at h'
      subst h'
      exact Nat.lt_succ_self _
  · intro m hm
    rcases List.mem_append.mp hm with h' | h'
    · exact Nat.lt_succ_of_lt (hI.fresh_mem m h')
    · rcases List.mem_map.mp h' with ⟨i, _, rfl⟩
      exact Nat.lt_succ_self _
  · intro c hc hg m hm hmc
    rcases List.mem_append.mp hc with hcold | hcnew
    · rcases List.mem_append.mp hm with hmold | hmnew
      · exact hI.mem_sub c hcold hg m hmold hmc
      · exfalso
        rcases List.mem_map.mp hmnew with ⟨i, _, rfl⟩
        have h1 : db.nextId = c.id := hmc
        have h2 := hI.fresh_conv c hcold
        exact absurd h1 (Nat.ne_of_gt h2)
    · simp only [List.mem_singleton] at hcnew
      subst hcnew
      rcases List.mem_append.mp hm with hmold | hmnew
      · exfalso
        have h1 := hI.fresh_mem m hmold
        have h2 : m.conversationId = db.nextId := hmc
        exact absurd h2 (Nat.ne_of_lt h1)
      · rcases List.mem_map.mp hmnew with ⟨i, hi, rfl⟩
        exact hi
  · intro cid' u'
    rw [List.filter_append, List.length_append]
    by_cases hc : cid' = db.nextId
    · subst hc
      have hold : db.members.filter (fun m =>
          decide (m.userId = u' ∧ m.conversationId = db.nextId)) = [] := by
        apply List.filter_eq_nil_iff.mpr
        intro m hm hpm
        simp only [decide_eq_true_eq] at hpm
        have h1 := hI.fresh_mem m hm
        exact absurd hpm.2 (Nat.ne_of_lt h1)
      rw [hold]
      simp only [List.length_nil, Nat.zero_add]
      rw [← List.countP_eq_length_filter, List.countP_map]
      have hcomp : ((fun m : Member =>
          decide (m.userId = u' ∧ m.conversationId = db.nextId)) ∘
          (fun memberId => ({
            conversationId := db.nextId,
            userId := memberId,
            unreadCount := 0,
            role := some (if memberId = u then Role.admin else Role.member),
            joinedAt := now } : Member))) = fun i => decide (i = u') := by
        funext i
        simp [Function.comp]
      rw [hcomp, List.countP_eq_length_filter,
        filter_eq_of_nodup _ (dedupFirst_nodup _) u']
      split <;> simp
    · have hnew : (((dedupFirst (u :: ms)).map (fun memberId =>
          ({ conversationId := db.nextId, userId := memberId, unreadCount := 0,
             role := some (if memberId = u then Role.admin else Role.member),
             joinedAt := now } : Member))).filter (fun m =>
          decide (m.userId = u' ∧ m.conversationId = cid'))) = [] := by
        apply List.filter_eq_nil_iff.mpr
        intro m hm hpm
        rcases List.mem_map.mp hm with ⟨i, _, rfl⟩
        simp only [decide_eq_true_eq] at hpm
        exact hc hpm.2.symm
      rw [hnew]
      simpa using hI.mem_unique cid' u'
  · intro c hc hg hex
    rcases List.mem_append.mp hc with hcold | hcnew
    · obtain ⟨m, hm, hmc⟩ := hex
      rcases List.mem_append.mp hm with hmold | hmnew
      · obtain ⟨ma, hma, hmac, hmarole⟩ := hI.admin_exists c hcold hg ⟨m, hmold, hmc⟩
        exact ⟨ma, List.mem_append_left _ hma, hmac, hmarole⟩
      · exfalso
        rcases List.mem_map.mp hmnew with ⟨i, _, rfl⟩
        have h1 : db.nextId = c.id := hmc
        have h2 := hI.fresh_conv c hcold
        exact absurd h1 (Nat.ne_of_gt h2)
    · simp only [List.mem_singleton] at hcnew
      subst hcnew
      refine ⟨{
        conversationId := db.nextId,
        userId := u,
        unreadCount := 0,
        role := some (if u = u then Role.admin else Role.member),
        joinedAt := now },
        List.mem_append_right _ (List.mem_map_of_mem _ ?_), rfl, ?_⟩
      · rw [mem_dedupFirst]
        exact List.mem_cons_self _ _
      · simp

/-- Success characterization of `leaveConversation`: the target conversation
exists and is a group, the caller's unique membership row is deleted, the
snapshot participant list is filtered, and either the oldest remaining
membership row is promoted to admin (when the leaver was admin and members
remain) or the membership table is just the erasure. -/
theorem leaveConversation_ok (db : DB) (u : UserId) (cid : ConvId) (db' : DB)
    (hle : (db.members.filter
      (fun m => decide (m.userId = u ∧ m.conversationId = cid))).length ≤ 1)
    (h : leaveConversation u cid db = Except.ok ((), db')) :
    ∃ conv mem,
      db.conversations.find? (fun c => decide (c.id = cid)) = some conv ∧
      conv.ctype = CType.group ∧
      db.members.filter
        (fun m => decide (m.userId = u ∧ m.conversationId = cid)) = [mem] ∧
      db'.conversations = patchFirst (fun c => decide (c.id = cid))
        (fun c => { c with participantIds :=
          conv.participantIds.filter (fun i => decide (i ≠ u)) })
        db.conversations ∧
      db'.nextId = db.nextId ∧
      (((mem.role = some Role.admin ∧
          0 < (conv.participantIds.filter (fun i => decide (i ≠ u))).length) ∧
        (∃ nm, (db.members.eraseP (fun m => decide (m.userId = u ∧
            m.conversationId = cid))).find?
            (fun m => decide (m.conversationId = cid)) = some nm) ∧
        db'.members = patchFirst (fun m => decide (m.conversationId = cid))
          (fun m => { m with role := some Role.admin })
          (db.members.eraseP (fun m => decide (m.userId = u ∧
            m.conversationId = cid)))) ∨
       ((mem.role = some Role.admin ∧
          0 < (conv.participantIds.filter (fun i => decide (i ≠ u))).length) ∧
        (db.members.eraseP (fun m => decide (m.userId = u ∧
            m.conversationId = cid))).find?
            (fun m => decide (m.conversationId = cid)) = none ∧
        db'.members = db.members.eraseP (fun m => decide (m.userId = u ∧
          m.conversationId = cid))) ∨
       (¬ (mem.role = some Role.admin ∧
          0 < (conv.participantIds.filter (fun i => decide (i ≠ u))).length) ∧
        db'.members = db.members.eraseP (fun m => decide (m.userId = u ∧
          m.conversationId = cid)))) := by
  rcases hcf : db.conversations.find? (fun c => decide (c.id = cid)) with _ | conv
  · have herr : leaveConversation u cid db =
        Except.error "Conversation not found" := by
      simp only [leaveConversation, hcf]
    rw [herr] at h
    cases h
  · by_cases hg : conv.ctype = CType.group
    swap
    · have herr : leaveConversation u cid db =
          Except.error "Can only leave group conversations" := by
        simp only [leaveConversation, hcf]
        rw [if_pos hg]
      rw [herr] at h
      cases h
    rcases hfm : db.members.filter
        (fun m => decide (m.userId = u ∧ m.conversationId = cid)) with _ | ⟨mem, _ | ⟨m2, mrest⟩⟩
    · have herr : leaveConversation u cid db =
          Except.error "Not a member of this conversation" := by
        simp only [leaveConversation, hcf, hg, uniqueQ_of_small _ _ hle, hfm]
        rfl
      rw [herr] at h
      cases h
    swap
    · rw [hfm] at hle
      simp at hle
    have hstep : leaveConversation u cid db =
        (if mem.role = some Role.admin ∧
            0 < (conv.participantIds.filter (fun i => decide (i ≠ u))).length then
          match (db.members.eraseP (fun m => decide (m.userId = u ∧
              m.conversationId = cid))).find?
              (fun m => decide (m.conversationId = cid)) with
          | some _ => Except.ok ((), { db with
              conversations := patchFirst (fun c => decide (c.id = cid))
                (fun c => { c with participantIds :=
                  conv.participantIds.filter (fun i => decide (i ≠ u)) })
                db.conversations,
              members := patchFirst (fun m => decide (m.conversationId = cid))
                (fun m => { m with role := some Role.admin })
                (db.members.eraseP (fun m => decide (m.userId = u ∧
                  m.conversationId = cid))) })
          | none => Except.ok ((), { db with
              conversations := patchFirst (fun c => decide (c.id = cid))
                (fun c => { c with participantIds :=
                  conv.participantIds.filter (fun i => decide (i ≠ u)) })
                db.conversations,
              members := db.members.eraseP (fun m => decide (m.userId = u ∧
                m.conversationId = cid)) })
        else Except.ok ((), { db with
          conversations := patchFirst (fun c => decide (c.id = cid))
            (fun c => { c with participantIds :=
              conv.participantIds.filter (fun i => decide (i ≠ u)) })
            db.conversations,
          members := db.members.eraseP (fun m => decide (m.userId = u ∧
            m.conversationId = cid)) })) := by
      simp only [leaveConversation, hcf, hg, uniqueQ_of_small _ _ hle, hfm]
      rfl
    by_cases hcond : mem.role = some Role.admin ∧
        0 < (conv.participantIds.filter (fun i => decide (i ≠ u))).length
    · rcases hf2 : (db.members.eraseP (fun m => decide (m.userId = u ∧
          m.conversationId = cid))).find?
          (fun m => decide (m.conversationId = cid)) with _ | nm
      · rw [hstep, if_pos hcond, hf2] at h
        simp only [Except.ok.injEq, Prod.mk.injEq, true_and] at h
        subst h
        exact ⟨conv, mem, hcf, hg, hfm, rfl, rfl,
          Or.inr (Or.inl ⟨hcond, hf2, rfl⟩)⟩
      · rw [hstep, if_pos hcond, hf2] at h
        simp only [Except.ok.injEq, Prod.mk.injEq, true_and] at h
        subst h
        exact ⟨conv, mem, hcf, hg, hfm, rfl, rfl,
          Or.inl ⟨hcond, ⟨nm, hf2⟩, rfl⟩⟩
    · rw [hstep, if_neg hcond] at h
      simp only [Except.ok.injEq, Prod.mk.injEq, true_and] at h
      subst h
      exact ⟨conv, mem, hcf, hg, hfm, rfl, rfl,
        Or.inr (Or.inr ⟨hcond, rfl⟩)⟩

/-- `leaveConversation` preserves the group-administration invariant. -/
theorem leaveConversation_inv (db : DB) (hI : GroupInv db) (u : UserId)
    (cid : ConvId) (db' : DB)
    (h : leaveConversation u cid db = Except.ok ((), db')) : GroupInv db' := by
  obtain ⟨conv, mem, hcf, hg, hfm, hconvs, hnext, hcases⟩ :=
    leaveConversation_ok db u cid db' (hI.mem_unique cid u) h
  have hconvmem : conv ∈ db.conversations := List.mem_of_find?_eq_some hcf
  have hconvid : conv.id = cid := by
    have := List.find?_some hcf
    simpa using this
  have htrace : ∀ m' ∈ db'.members, ∃ m1 ∈ db.members.eraseP
      (fun m => decide (m.userId = u ∧ m.conversationId = cid)),
      m1.userId = m'.userId ∧ m1.conversationId = m'.conversationId := by
    rcases hcases with ⟨_, _, hm⟩ | ⟨_, _, hm⟩ | ⟨_, hm⟩
    · intro m' hm'
      rw [hm] at hm'
      rcases mem_of_mem_patchFirst _ _ hm' with hin | ⟨y, hy, _, hxy⟩
      · exact ⟨m', hin, rfl, rfl⟩
      · exact ⟨y, hy, by rw [hxy], by rw [hxy]⟩
    · intro m' hm'
      rw [hm] at hm'
      exact ⟨m', hm', rfl, rfl⟩
    · intro m' hm'
      rw [hm] at hm'
      exact ⟨m', hm', rfl, rfl⟩
  have hgone : ∀ m1 ∈ db.members.eraseP
      (fun m => decide (m.userId = u ∧ m.conversationId = cid)),
      ¬ (m1.userId = u ∧ m1.conversationId = cid) := by
    intro m1 hm1 hpair
    have hmemf : m1 ∈ (db.members.eraseP
        (fun m => decide (m.userId = u ∧ m.conversationId = cid))).filter
        (fun m => decide (m.userId = u ∧ m.conversationId = cid)) :=
      List.mem_filter.mpr ⟨hm1, by simp [hpair.1, hpair.2]⟩
    rw [filter_eraseP, hfm] at hmemf
    simp at hmemf
  have hctrace : ∀ c' ∈ db'.conversations,
      c' ∈ db.conversations ∨
      ∃ y ∈ db.conversations, y.id = cid ∧ c'.id = y.id ∧ c'.ctype = y.ctype ∧
        c'.participantIds = conv.participantIds.filter
          (fun i => decide (i ≠ u)) := by
    intro c' hc'
    rw [hconvs] at hc'
    rcases mem_of_mem_patchFirst _ _ hc' with hin | ⟨y, hy, hpy, hxy⟩
    · exact Or.inl hin
    · refine Or.inr ⟨y, hy, ?_, by rw [hxy], by rw [hxy], by rw [hxy]⟩
      simpa using hpy
  refine ⟨?_, ?_, ?_, ?_, ?_⟩
  · intro c' hc'
    rw [hnext]
    rcases hctrace c' hc' with hin | ⟨y, hy, _, hcid', _, _⟩
    · exact hI.fresh_conv c' hin
    · rw [hcid']
      exact hI.fresh_conv y hy
  · intro m' hm'
    rw [hnext]
    obtain ⟨m1, hm1, _, hmc⟩ := htrace m' hm'
    rw [← hmc]
    exact hI.fresh_mem m1 (List.mem_of_mem_eraseP hm1)
  · intro c' hc' hg' m' hm' hmc'
    obtain ⟨m1, hm1, hmu, hmc⟩ := htrace m' hm'
    have hm1db : m1 ∈ db.members := List.mem_of_mem_eraseP hm1
    rcases hctrace c' hc' with hin | ⟨y, hy, hyid, hcid', hty, hpart⟩
    · rw [← hmu]
      exact hI.mem_sub c' hin hg' m1 hm1db (by rw [hmc, hmc'])
    · rw [hpart]
      have hm1cid : m1.conversationId = cid := by rw [hmc, hmc', hcid', hyid]
      have hm1u : m1.userId ≠ u := fun he => hgone m1 hm1 ⟨he, hm1cid⟩
      have hin : m1.userId ∈ conv.participantIds :=
        hI.mem_sub conv hconvmem hg m1 hm1db (by rw [hm1cid, hconvid])
      rw [← hmu]
      exact List.mem_filter.mpr ⟨hin, by simpa using hm1u⟩
  · intro cid' u'
    have hbound : ((db.members.eraseP (fun m => decide (m.userId = u ∧
        m.conversationId = cid))).filter
        (fun m => decide (m.userId = u' ∧ m.conversationId = cid'))).length ≤ 1 :=
      Nat.le_trans (List.Sublist.length_le ((List.eraseP_sublist _).filter _))
        (hI.mem_unique cid' u')
    rcases hcases with ⟨_, _, hm⟩ | ⟨_, _, hm⟩ | ⟨_, hm⟩
    · rw [hm, ← List.countP_eq_length_filter,
        countP_patchFirst (fun (m : Member) => decide (m.conversationId = cid))
          (fun (m : Member) => decide (m.userId = u' ∧ m.conversationId = cid'))
          (fun (m : Member) => { m with role := some Role.admin }) _
          (fun x => rfl),
        List.countP_eq_length_filter]
      exact hbound
    · rw [hm]
      exact hbound
    · rw [hm]
      exact hbound
  · intro c' hc' hg' hex
    obtain ⟨mw, hmw, hmwc⟩ := hex
    obtain ⟨m1, hm1, hmu1, hmc1⟩ := htrace mw hmw
    have hm1db : m1 ∈ db.members := List.mem_of_mem_eraseP hm1
    by_cases hcid' : c'.id = cid
    · rcases hcases with ⟨hcond, ⟨nm, hf2⟩, hm⟩ | ⟨hcond, hf2, hm⟩ | ⟨hcond, hm⟩
      · have hnmc : nm.conversationId = cid := by
          have := List.find?_some hf2
          simpa using this
        have hfp : (patchFirst (fun m => decide (m.conversationId = cid))
            (fun m => { m with role := some Role.admin })
            (db.members.eraseP (fun m => decide (m.userId = u ∧
              m.conversationId = cid)))).find?
            (fun m => decide (m.conversationId = cid)) =
            some { nm with role := some Role.admin } :=
          find?_patchFirst _ _ (fun y => rfl) hf2
        refine ⟨{ nm with role := some Role.admin }, ?_, ?_, rfl⟩
        · rw [hm]
          exact List.mem_of_find?_eq_some hfp
        · show nm.conversationId = c'.id
          exact hnmc.trans hcid'.symm
      · rw [hm] at hmw
        exfalso
        have hnp := List.find?_eq_none.mp hf2 mw hmw
        simp only [decide_eq_true_eq] at hnp
        exact hnp (hmwc.trans hcid')
      · rw [hm] at hmw
        have hmwu : mw.userId ≠ u :=
          fun he => hgone mw hmw ⟨he, hmwc.trans hcid'⟩
        have hmwdb : mw ∈ db.members := List.mem_of_mem_eraseP hmw
        have hmwin : mw.userId ∈ conv.participantIds :=
          hI.mem_sub conv hconvmem hg mw hmwdb
            (by rw [hmwc, hcid', hconvid])
        have hpos : 0 < (conv.participantIds.filter
            (fun i => decide (i ≠ u))).length :=
          List.length_pos.mpr (List.ne_nil_of_mem
            (List.mem_filter.mpr ⟨hmwin, by simpa using hmwu⟩))
        have hrole : ¬ mem.role = some Role.admin := fun hr => hcond ⟨hr, hpos⟩
        obtain ⟨ma, hma, hmac, hmarole⟩ := hI.admin_exists conv hconvmem hg
          ⟨mw, hmwdb, by rw [hmwc, hcid', hconvid]⟩
        have hmane : ¬ (ma.userId = u ∧ ma.conversationId = cid) := by
          intro hpair
          have hmaf : ma ∈ db.members.filter (fun m => decide (m.userId = u ∧
              m.conversationId = cid)) :=
            List.mem_filter.mpr ⟨hma, by simp [hpair.1, hpair.2]⟩
          rw [hfm] at hmaf
          simp at hmaf
          rw [hmaf] at hmarole
          exact hrole hmarole
        refine ⟨ma, ?_, ?_, hmarole⟩
        · rw [hm]
          exact mem_eraseP_of_not _ hma (by simpa using hmane)
        · exact hmac.trans (hconvid.trans hcid'.symm)
    · have hcin : c' ∈ db.conversations := by
        rcases hctrace c' hc' with hin | ⟨y, hy, hyid, hcid2, _, _⟩
        · exact hin
        · exact absurd (hcid2.trans hyid) hcid'
      have hm1c : m1.conversationId = c'.id := by rw [hmc1, hmwc]
      obtain ⟨ma, hma, hmac, hmarole⟩ := hI.admin_exists c' hcin hg'
        ⟨m1, hm1db, hm1c⟩
      have hmane : ¬ (ma.userId = u ∧ ma.conversationId = cid) :=
        fun hpair => hcid' (hmac.symm.trans hpair.2)
      have hma1 : ma ∈ db.members.eraseP (fun m => decide (m.userId = u ∧
          m.conversationId = cid)) :=
        mem_eraseP_of_not _ hma (by simpa using hmane)
      refine ⟨ma, ?_, hmac, hmarole⟩
      rcases hcases with ⟨_, _, hm⟩ | ⟨_, _, hm⟩ | ⟨_, hm⟩
      · rw [hm]
        apply mem_patchFirst_of_not _ _ hma1
        simp only [decide_eq_true_eq]
        exact fun hc => hcid' (hmac.symm.trans hc)
      · rw [hm]
        exact hma1
      · rw [hm]
        exact hma1

/-- When the leaver was an admin and membership rows remain for the
conversation, `leaveConversation` promotes exactly the first remaining
membership row in table iteration order to admin and leaves the others'
roles unchanged. -/
theorem leaveConversation_promotes (db : DB) (hI : GroupInv db) (u : UserId)
    (cid : ConvId) (db' : DB)
    (h : leaveConversation u cid db = Except.ok ((), db'))
    (r : Member) (hr : r ∈ db.members) (hru : r.userId = u)
    (hrc : r.conversationId = cid) (hrrole : r.role = some Role.admin)
    (m : Member) (t : List Member)
    (hfilter : (db.members.eraseP (fun x => decide (x.userId = u ∧
        x.conversationId = cid))).filter
        (fun x => decide (x.conversationId = cid)) = m :: t) :
    db'.members.filter (fun x => decide (x.conversationId = cid)) =
      { m with role := some Role.admin } :: t := by
  obtain ⟨conv, mem, hcf, hg, hfm, hconvs, hnext, hcases⟩ :=
    leaveConversation_ok db u cid db' (hI.mem_unique cid u) h
  have hconvmem : conv ∈ db.conversations := List.mem_of_find?_eq_some hcf
  have hconvid : conv.id = cid := by
    have := List.find?_some hcf
    simpa using this
  have hrmem : r = mem := by
    have hrf : r ∈ db.members.filter (fun x => decide (x.userId = u ∧
        x.conversationId = cid)) :=
      List.mem_filter.mpr ⟨hr, by simp [hru, hrc]⟩
    rw [hfm] at hrf
    simpa using hrf
  have hmemrole : mem.role = some Role.admin := by
    rw [← hrmem]
    exact hrrole
  have hmmem : m ∈ (db.members.eraseP (fun x => decide (x.userId = u ∧
      x.conversationId = cid))).filter
      (fun x => decide (x.conversationId = cid)) := by
    rw [hfilter]
    exact List.mem_cons_self m t
  have hm1 := (List.mem_filter.mp hmmem).1
  have hmcid : m.conversationId = cid := by
    have := (List.mem_filter.mp hmmem).2
    simpa using this
  have hmdb : m ∈ db.members := List.mem_of_mem_eraseP hm1
  have hgone : ¬ (m.userId = u ∧ m.conversationId = cid) := by
    intro hpair
    have hmemf : m ∈ (db.members.eraseP (fun x => decide (x.userId = u ∧
        x.conversationId = cid))).filter
        (fun x => decide (x.userId = u ∧ x.conversationId = cid)) :=
      List.mem_filter.mpr ⟨hm1, by simp [hpair.1, hpair.2]⟩
    rw [filter_eraseP, hfm] at hmemf
    simp at hmemf
  have hmu : m.userId ≠ u := fun he => hgone ⟨he, hmcid⟩
  have hmin : m.userId ∈ conv.participantIds :=
    hI.mem_sub conv hconvmem hg m hmdb (by rw [hmcid, hconvid])
  have hpos : 0 < (conv.participantIds.filter
      (fun i => decide (i ≠ u))).length :=
    List.length_pos.mpr (List.ne_nil_of_mem
      (List.mem_filter.mpr ⟨hmin, by simpa using hmu⟩))
  have hfind : (db.members.eraseP (fun x => decide (x.userId = u ∧
      x.conversationId = cid))).find?
      (fun x => decide (x.conversationId = cid)) = some m := by
    rw [find?_eq_head?_filter, hfilter]
    rfl
  rcases hcases with ⟨_, _, hpm⟩ | ⟨_, hf2, _⟩ | ⟨hcond, _⟩
  · rw [hpm]
    rw [filter_patchFirst_self
      (fun (x : Member) => decide (x.conversationId = cid))
      (fun (x : Member) => { x with role := some Role.admin }) _
      (fun x => rfl)]
    rw [hfilter]
  · rw [hfind] at hf2
    cases hf2
  · exact absurd ⟨hmemrole, hpos⟩ hcond

/-- Per-(user, conversation) uniqueness of membership rows follows from
nodup of the projected (userId, conversationId) pairs; this gives a
decidable entry point for establishing `GroupInv` on concrete states. -/
theorem mem_unique_of_nodup : ∀ (l : List Member),
    (l.map (fun m => (m.userId, m.conversationId))).Nodup →
    ∀ (cid : ConvId) (u : UserId),
      (l.filter (fun m => decide (m.userId = u ∧
        m.conversationId = cid))).length ≤ 1 := by
  intro l
  induction l with
  | nil =>
    intro _ cid u
    simp
  | cons x xs ih =>
    intro h cid u
    rw [List.map_cons, List.nodup_cons] at h
    by_cases hp : (decide (x.userId = u ∧ x.conversationId = cid)) = true
    · rw [List.filter_cons, if_pos hp]
      simp only [decide_eq_true_eq] at hp
      have hxs : xs.filter (fun m => decide (m.userId = u ∧
          m.conversationId = cid)) = [] := by
        apply List.filter_eq_nil_iff.mpr
        intro y hy hpy
        simp only [decide_eq_true_eq] at hpy
        apply h.1
        have hpair : (x.userId, x.conversationId) =
            (y.userId, y.conversationId) := by
          rw [hp.1, hp.2, hpy.1, hpy.2]
        rw [hpair]
        exact List.mem_map_of_mem _ hy
      rw [hxs]
      simp
    · rw [List.filter_cons, if_neg hp]
      exact ih h.2 cid u

/-- C8: in a group conversation, a successful `leaveConversation` by an
admin member, when at least one membership row remains, promotes exactly
the first remaining membership row in table iteration order (rows are
stored in insertion order, so this is the oldest-joined member) to admin;
and the invariant `GroupInv` — in particular that every group conversation
with at least one membership row has a membership row with role admin — is
preserved by `createGroup` and by every successful `leaveConversation`
step. -/
theorem leaveConversation_admin_invariant (db : DB) (hI : GroupInv db) :
    (∀ now creator gname ms img cid db',
      createGroup now creator gname ms img db = Except.ok (cid, db') →
      GroupInv db') ∧
    (∀ u cid db', leaveConversation u cid db = Except.ok ((), db') →
      GroupInv db') ∧
    (∀ u cid db', leaveConversation u cid db = Except.ok ((), db') →
      ∀ r ∈ db.members, r.userId = u → r.conversationId = cid →
        r.role = some Role.admin →
        ∀ m t, (db.members.eraseP (fun x => decide (x.userId = u ∧
            x.conversationId = cid))).filter
            (fun x => decide (x.conversationId = cid)) = m :: t →
          db'.members.filter (fun x => decide (x.conversationId = cid)) =
            { m with role := some Role.admin } :: t) :=
  ⟨fun now creator gname ms img cid db' h =>
      createGroup_inv db hI now creator gname ms img cid db' h,
    fun u cid db' h => leaveConversation_inv db hI u cid db' h,
    fun u cid db' h r hr hru hrc hrrole m t hfilter =>
      leaveConversation_promotes db hI u cid db' h r hr hru hrc hrrole
        m t hfilter⟩

/-- C8 witness: on the concrete three-member group `exGroupDB` the
invariant hypothesis holds; when admin 0 leaves, the resulting state
satisfies the invariant and member 1, the oldest-joined remaining row, is
the one promoted to admin. -/
theorem leaveConversation_admin_invariant_witness :
    GroupInv exGroupDB ∧
    ∃ db', leaveConversation 0 3 exGroupDB = Except.ok ((), db') ∧
      GroupInv db' ∧
      db'.members.filter (fun x => decide (x.conversationId = 3)) =
        [{ conversationId := 3, userId := 1, unreadCount := 0,
           role := some Role.admin, joinedAt := 1 },
         { conversationId := 3, userId := 2, unreadCount := 0,
           role := some Role.member, joinedAt := 2 }] := by
  have hI : GroupInv exGroupDB :=
    ⟨by decide, by decide, by decide,
      mem_unique_of_nodup _ (by decide), by decide⟩
  obtain ⟨-, hinv, hprom⟩ := leaveConversation_admin_invariant exGroupDB hI
  have hrun : leaveConversation 0 3 exGroupDB = Except.ok ((),
      { conversations := [{
          id := 3,
          ctype := CType.group,
          participantIds := [1, 2],
          name := some "team",
          createdBy := some 0 }],
        members :=
          [{ conversationId := 3, userId := 1, unreadCount := 0,
             role := some Role.admin, joinedAt := 1 },
           { conversationId := 3, userId := 2, unreadCount := 0,
             role := some Role.member, joinedAt := 2 }],
        nextId := 4 }) := by rfl
  refine ⟨hI, _, hrun, hinv 0 3 _ hrun, ?_⟩
  exact hprom 0 3 _ hrun
    { conversationId := 3, userId := 0, unreadCount := 0,
      role := some Role.admin, joinedAt := 0 }
    (by decide) rfl rfl rfl
    { conversationId := 3, userId := 1, unreadCount := 0,
      role := some Role.member, joinedAt := 1 }
    [{ conversationId := 3, userId := 2, unreadCount := 0,
       role := some Role.member, joinedAt := 2 }]
    (by decide)

-- ─── C6: end-to-end DM scenario (exhibits a code bug) ────────────────────

/-- C6 (code bug exhibited at the failing input): user 0 creates a fresh DM
with user 1 at t=100 (conversation id 10), sends `"hi"` at t=200; user 1's
`getConversationMeta` then reports `unreadCount = 1` and
`latestMessageSentAt = 200` as the claim states — but after user 1 calls
`markConversationRead`, a subsequent `getConversationMeta` still reports
`unreadCount = 1`, not the claimed 0: `markConversationRead` only zeroes the
stored `unreadCount` field and never writes `lastReadAt`, while
`getConversationMeta` recomputes its unread count from
`lastReadAt ?? joinedAt` and never reads the stored field. -/
theorem markRead_meta_unread_bug :
    ∃ dbA dbB dbC,
      getOrCreateConversation 100 0 1 ({ nextId := 10 } : DB) =
        Except.ok (10, dbA) ∧
      sendMessage 200 0 10 "hi" none dbA = Except.ok (11, dbB) ∧
      getConversationMeta 1 10 dbB =
        Except.ok { latestMessageSentAt := some 200, unreadCount := 1 } ∧
      markConversationRead 1 10 none dbB = Except.ok ((), dbC) ∧
      getConversationMeta 1 10 dbC =
        Except.ok { latestMessageSentAt := some 200, unreadCount := 1 } :=
  ⟨_, _, _, rfl, rfl, rfl, rfl, rfl⟩

/-- Witness for C3: deleting the previously edited message `exMsg`. -/
theorem deleteMessage_listMessages_tombstone_witness :
    ∃ db1, deleteMessage 30 exMsg.senderId exMsg.id exMsgDB = Except.ok ((), db1) ∧
      ∀ conv, listMessages conv db1 = (listMessages conv exMsgDB).map (fun v =>
        if v.id = exMsg.id then
          { v with text := none, deleted := true, deletedAt := some 30,
                   edited := false, editedAt := none }
        else v) :=
  deleteMessage_listMessages_tombstone exMsgDB exMsg 30 (by decide) (by decide)

/-- Witness for C9: deleting the snapshot last message `exMsg`. -/
theorem deleteMessage_snapshot_frame_witness :
    ∃ db1, deleteMessage 31 exMsg.senderId exMsg.id exMsgDB = Except.ok ((), db1) ∧
      (∀ c, exMsgDB.conversations.find?
          (fun x => decide (x.id = exMsg.conversationId)) = some c →
        (c.lastMessageId = some exMsg.id →
          db1.conversations = patchFirst (fun x => decide (x.id = exMsg.conversationId))
            (fun x => { x with lastMessageText := some "Message deleted" })
            exMsgDB.conversations ∧
          db1.conversations.find? (fun x => decide (x.id = exMsg.conversationId)) =
            some { c with lastMessageText := some "Message deleted" }) ∧
        (¬ c.lastMessageId = some exMsg.id → db1.conversations = exMsgDB.conversations)) ∧
      (exMsgDB.conversations.find?
          (fun x => decide (x.id = exMsg.conversationId)) = none →
        db1.conversations = exMsgDB.conversations) :=
  deleteMessage_snapshot_frame exMsgDB exMsg 31 (by decide)

/-- Witness for C7 at a concrete state with one fresh typing row. -/
theorem setTyping_ttl_witness :
    (∃ db1, setTyping 10 7 3 true
        ({ typing := [{ conversationId := 3, userId := 7, updatedAt := 0 }] } : DB) =
        Except.ok ((), db1) ∧
      (3011 - 10 > TYPING_TTL_MS → ∀ x ∈ getTypingUsers 3011 9 3 db1, x.1 ≠ 7)) ∧
    (∃ db2, setTyping 10 7 3 false
        ({ typing := [{ conversationId := 3, userId := 7, updatedAt := 0 }] } : DB) =
        Except.ok ((), db2) ∧
      (∀ (t : Int) (v : Nat), ∀ x ∈ getTypingUsers t v 3 db2, x.1 ≠ 7) ∧
      (({ typing := [{ conversationId := 3, userId := 7, updatedAt := 0 }] } : DB).typing.filter
          (fun t => decide (t.userId = 7 ∧ t.conversationId = 3)) = [] →
        db2 = ({ typing := [{ conversationId := 3, userId := 7, updatedAt := 0 }] } : DB))) :=
  setTyping_ttl ({ typing := [{ conversationId := 3, userId := 7, updatedAt := 0 }] } : DB)
    7 3 10 3011 9 (by decide)

end Chat
